import Mathlib

/-!
Verification of the bitmap-indexer registry tooling.

Shallow embedding of the JavaScript sources of `thebitmaptoshi/bitmap-indexer`:

* the diff engine `SatComparator.compareFiles` (sat-comparator.mjs),
* the batch reconciler `RegistryComparator` (validator.mjs),
* the First-is-First conflict resolver `TrueBitmapResolver` (true-bitmap.mjs),
* the provider router `fetchFromAPI` / block-txids fallthrough (true-bitmap.mjs),
* the duplicate pipeline (duplicate-validator.mjs, duplicate-competition.mjs).

Numbers that the scripts treat as sat ordinals and block heights are
embedded as `Nat` (the data is non-negative); JavaScript `null`/`undefined`
and absent object fields are embedded as `Option`; network calls are
embedded as explicit oracle functions passed to the translated code.
JavaScript truthiness of a numeric value is `≠ 0`, of an object always true.
-/

namespace BitmapIndexer

/-! ## Diff engine (sat-comparator.mjs, `SatComparator.compareFiles`)

A loaded dataset (`this.file1Data` / `this.file2Data`) is a JavaScript `Map`
from sat to `{block, source}`; we embed it as an association list in
insertion order with the sat keys unique (a `Map`'s keys are unique), and
drop the constant `source` tag.  -/

/-- `Map.get` on an association list: first binding of the key. -/
def mapGet (l : List (Nat × Nat)) (k : Nat) : Option Nat :=
  (l.find? (fun p => p.1 = k)).map Prod.snd

/-- `Map.set` on an association list: overwrite in place, else append
(JavaScript `Map.set` keeps the original insertion position on overwrite). -/
def mapSet (l : List (Nat × Nat)) (k v : Nat) : List (Nat × Nat) :=
  if (l.find? (fun p => p.1 = k)).isSome then
    l.map (fun p => if p.1 = k then (k, v) else p)
  else
    l ++ [(k, v)]

/-- Adding one element to a JavaScript `Set` (kept as a first-occurrence,
insertion-ordered list). -/
def setAdd (l : List Nat) (x : Nat) : List Nat :=
  if x ∈ l then l else l ++ [x]

/-- `new Set([...xs])`: deduplicate keeping first occurrences, in order. -/
def jsSet (l : List Nat) : List Nat :=
  l.foldl setAdd []

/-- JavaScript truthiness of a possibly-absent number: `undefined`/`null`
and `0` are falsy. -/
def jsTruthy (o : Option Nat) : Bool :=
  o.getD 0 ≠ 0

/-- The block→sat inverse map built by `compareFiles`
(`for (const [sat, data] of fileData) blockToSat.set(data.block, sat)`). -/
def buildBlockToSat (fileData : List (Nat × Nat)) : List (Nat × Nat) :=
  fileData.foldl (fun m p => mapSet m p.2 p.1) []

/-- One record of `this.differences`.  `MATCH` outcomes are only counted in
`this.stats.matches`; the source never pushes a MATCH record. -/
inductive DiffEntry
  | conflict (sat file1Block file2Block : Nat) (description : String)
  | file1Only (sat file1Block : Nat) (description : String)
  | file2Only (sat file2Block : Nat) (description : String)
  | blockConflict (block file1Sat file2Sat : Nat) (description : String)
deriving DecidableEq, Repr

/-- The `sat` property of a difference record (absent on `BLOCK_CONFLICT`
records, which carry `block`/`file1Sat`/`file2Sat` instead). -/
def DiffEntry.satField : DiffEntry → Option Nat
  | .conflict s _ _ _ => some s
  | .file1Only s _ _ => some s
  | .file2Only s _ _ => some s
  | .blockConflict _ _ _ _ => none

/-- The `block` property of a difference record (present only on
`BLOCK_CONFLICT` records). -/
def DiffEntry.blockField : DiffEntry → Option Nat
  | .blockConflict b _ _ _ => some b
  | _ => none

def DiffEntry.isFile1Only : DiffEntry → Bool
  | .file1Only _ _ _ => true
  | _ => false

def DiffEntry.isFile2Only : DiffEntry → Bool
  | .file2Only _ _ _ => true
  | _ => false

def DiffEntry.isConflict : DiffEntry → Bool
  | .conflict _ _ _ _ => true
  | _ => false

def DiffEntry.isBlockConflict : DiffEntry → Bool
  | .blockConflict _ _ _ _ => true
  | _ => false

/-- `this.stats` of `SatComparator`. -/
structure Stats where
  file1Count : Nat
  file2Count : Nat
  /-- the source's `matches` counter (`matches` is reserved in Lean) -/
  matches' : Nat
  conflicts : Nat
  file1Only : Nat
  file2Only : Nat
deriving DecidableEq, Repr

structure DiffState where
  diffs : List DiffEntry
  stats : Stats
deriving DecidableEq, Repr

/-- Body of the `for (const sat of allSats)` loop of `compareFiles`. -/
def satStep (file1Data file2Data : List (Nat × Nat)) (st : DiffState) (sat : Nat) :
    DiffState :=
  match mapGet file1Data sat, mapGet file2Data sat with
  | some b1, some b2 =>
    if b1 = b2 then
      { st with stats := { st.stats with matches' := st.stats.matches' + 1 } }
    else
      { diffs := st.diffs ++ [.conflict sat b1 b2
          s!"Sat {sat} has different blocks: File1={b1}, File2={b2}"],
        stats := { st.stats with conflicts := st.stats.conflicts + 1 } }
  | some b1, none =>
    { diffs := st.diffs ++ [.file1Only sat b1
        s!"Sat {sat} only exists in File1 (block {b1})"],
      stats := { st.stats with file1Only := st.stats.file1Only + 1 } }
  | none, some b2 =>
    { diffs := st.diffs ++ [.file2Only sat b2
        s!"Sat {sat} only exists in File2 (block {b2})"],
      stats := { st.stats with file2Only := st.stats.file2Only + 1 } }
  | none, none => st

/-- Body of the `for (const block of allBlocks)` loop of `compareFiles`:
`if (file1Sat && file2Sat && file1Sat !== file2Sat)` push a BLOCK_CONFLICT.
(The numeric truthiness test makes a sat of `0` fall through.)  Note the
source does not touch `this.stats` here. -/
def blockStep (blockToSat1 blockToSat2 : List (Nat × Nat)) (st : DiffState)
    (block : Nat) : DiffState :=
  let file1Sat := mapGet blockToSat1 block
  let file2Sat := mapGet blockToSat2 block
  if jsTruthy file1Sat ∧ jsTruthy file2Sat ∧ file1Sat ≠ file2Sat then
    let s1 := file1Sat.getD 0
    let s2 := file2Sat.getD 0
    { st with diffs := st.diffs ++ [.blockConflict block s1 s2
        s!"Block {block} has different sats: File1→{s1}, File2→{s2}"] }
  else
    st

/-- The comparator passed to `this.differences.sort`:
`if (a.sat && b.sat) return a.sat - b.sat;
 if (a.block && b.block) return a.block - b.block; return 0;` -/
def jsCmp (a b : DiffEntry) : Int :=
  if jsTruthy a.satField ∧ jsTruthy b.satField then
    (a.satField.getD 0 : Int) - (b.satField.getD 0 : Int)
  else if jsTruthy a.blockField ∧ jsTruthy b.blockField then
    (a.blockField.getD 0 : Int) - (b.blockField.getD 0 : Int)
  else
    0

/-- Stable insert for `jsStableSort`: `x` goes before the first `y` of the
already-processed list with `cmp y x > 0`. -/
def stableInsert (cmp : DiffEntry → DiffEntry → Int) (x : DiffEntry) :
    List DiffEntry → List DiffEntry
  | [] => [x]
  | y :: ys => if cmp y x ≤ 0 then y :: stableInsert cmp x ys else x :: y :: ys

/-- `Array.prototype.sort` (stable, per ECMA-262) modelled as stable
insertion sort; on a consistent comparator this agrees with every stable
sort, and on two-element arrays with any stable sort whatsoever. -/
def jsStableSort (cmp : DiffEntry → DiffEntry → Int) (l : List DiffEntry) :
    List DiffEntry :=
  l.foldl (fun acc x => stableInsert cmp x acc) []

/-- `SatComparator.compareFiles`, starting from the two loaded `Map`s
(the network/file loading is outside the diff algorithm). -/
def compareFiles (file1Data file2Data : List (Nat × Nat)) : DiffState :=
  let blockToSat1 := buildBlockToSat file1Data
  let blockToSat2 := buildBlockToSat file2Data
  let allSats := jsSet (file1Data.map Prod.fst ++ file2Data.map Prod.fst)
  let st0 : DiffState :=
    { diffs := [],
      stats := { file1Count := file1Data.length, file2Count := file2Data.length,
                 matches' := 0, conflicts := 0, file1Only := 0, file2Only := 0 } }
  let st1 := allSats.foldl (satStep file1Data file2Data) st0
  let allBlocks := jsSet (blockToSat1.map Prod.fst ++ blockToSat2.map Prod.fst)
  let st2 := allBlocks.foldl (blockStep blockToSat1 blockToSat2) st1
  { st2 with diffs := jsStableSort jsCmp st2.diffs }

/-! ## First-is-First conflict resolver (true-bitmap.mjs, `TrueBitmapResolver`)

`resolveConflict` and `resolveIdenticalInscriptionConflict` are pure in
everything except three network lookups, which we pass in as oracles:

* `txPos` stands for `getTxPositionInBlock` — in the source that method
  catches every network error and returns `{blockHeight: null,
  blockPosition: null}`, so it is a total function into `TxPos`;
* `inscriptionSat` stands for `getInscriptionSatoshi` — returns the sat
  number as a decimal string scraped from HTML, or `null` on any failure
  (the regex group `(\d+)` is never empty, so a returned string is truthy);
* `inscriptionBySat` stands for `getInscriptionBySat sat block` — the
  inscription id on `sat` whose content is exactly `"{block}.bitmap"`, or
  `null`. -/

/-- The sentinel the batch reconciler stores when a registry partition has
no entry for the conflicted block. -/
def idNotFound : String := "ID not found"

/-- `result.winner` of a verdict (`'REPO1' | 'REPO2' | 'BOTH' | 'NEITHER' |
'UNKNOWN'`). -/
inductive Winner
  | repo1
  | repo2
  | both
  | neither
  | unknown
deriving DecidableEq, Repr

/-- `correctRepo === 'REPO1' ? 'REPO2' : 'REPO1'`. -/
def flipRepo : Winner → Winner
  | .repo1 => .repo2
  | _ => .repo1

/-- Result shape of `getTxPositionInBlock`: confirmed block height and the
transaction's index in that block's txid list; `none` embeds `null`. -/
structure TxPos where
  blockHeight : Option Nat
  blockPosition : Option Nat
deriving DecidableEq, Repr

/-- One aggregated BLOCK_CONFLICT as handed to `resolveConflict`:
`{ block, repo1Id, repo2Id, file1Sat, file2Sat }`. -/
structure Conflict where
  block : Nat
  repo1Id : String
  repo2Id : String
  file1Sat : Nat
  file2Sat : Nat
deriving DecidableEq, Repr

/-- A resolver verdict.  `winningSat`/`losingSat` are only set on branches
where the source includes them. -/
structure Verdict where
  block : Nat
  winner : Winner
  inscriptionId : Option String
  winningSat : Option Nat
  losingSat : Option Nat
  reason : String
deriving DecidableEq, Repr

/-- The three network capabilities used by the resolver. -/
structure Providers where
  txPos : String → TxPos
  inscriptionSat : String → Option String
  inscriptionBySat : Nat → Nat → Option String

/-- Lower-case hex digit, for the txid part of `^([a-f0-9]{64})i\d+$`. -/
def isHexLower (ch : Char) : Bool :=
  ch.isDigit ∨ ('a' ≤ ch ∧ ch ≤ 'f')

/-- The `i\d+$` tail of the inscription-id pattern. -/
def indexTailOk : List Char → Bool
  | 'i' :: ds => ds ≠ [] ∧ ds.all Char.isDigit
  | _ => false

/-- `extractTxId`: `null` on a falsy id or the `'ID not found'` sentinel,
otherwise the 64-hex-character prefix of an id matching
`^([a-f0-9]{64})i\d+$`. -/
def extractTxId (inscriptionId : String) : Option String :=
  if inscriptionId = "" ∨ inscriptionId = idNotFound then none
  else
    let cs := inscriptionId.toList
    let txid := cs.take 64
    let rest := cs.drop 64
    if txid.length = 64 ∧ txid.all isHexLower ∧ indexTailOk rest then
      some (String.mk txid)
    else
      none

/-- STEPs 4–7 of `resolveIdenticalInscriptionConflict`, operating on the
locals `correctRepo` / `correctInscriptionId` / `remainingSat` set up by
STEP 3 (the source continues in straight line after the if-chain that
assigns them). -/
def identicalSteps4to7 (P : Providers) (c : Conflict) (correctRepo : Winner)
    (correctInscriptionId : String) (remainingSat : Nat) (actualSat : String) :
    Verdict :=
  -- STEP 4: inscription on the remaining sat with content `{block}.bitmap`
  match P.inscriptionBySat remainingSat c.block with
  | none =>
    { block := c.block, winner := correctRepo,
      inscriptionId := some correctInscriptionId, winningSat := none, losingSat := none,
      reason := s!"Correct sat {actualSat}, remaining sat {remainingSat} has no valid bitmap inscription" }
  | some remainingInscriptionId =>
    -- STEP 5: extract both txids
    match extractTxId correctInscriptionId, extractTxId remainingInscriptionId with
    | some correctTxid, some remainingTxid =>
      -- STEP 6: transaction ordering for both
      let correctTxData := P.txPos correctTxid
      let remainingTxData := P.txPos remainingTxid
      -- STEP 7: First-is-First between the two inscriptions
      match correctTxData.blockHeight, remainingTxData.blockHeight with
      | some hc, some hr =>
        if hc < hr then
          { block := c.block, winner := correctRepo,
            inscriptionId := some correctInscriptionId, winningSat := none, losingSat := none,
            reason := s!"Correct sat {actualSat}, inscribed in block {hc} (before {hr})" }
        else if hr < hc then
          { block := c.block, winner := flipRepo correctRepo,
            inscriptionId := some remainingInscriptionId, winningSat := none, losingSat := none,
            reason := s!"Wrong sat claim, but inscribed earlier (block {hr} before {hc})" }
        else
          match correctTxData.blockPosition, remainingTxData.blockPosition with
          | some pc, some pr =>
            if pc < pr then
              { block := c.block, winner := correctRepo,
                inscriptionId := some correctInscriptionId, winningSat := none, losingSat := none,
                reason := s!"Correct sat {actualSat}, same block {hc}, tx position {pc} before {pr}" }
            else if pr < pc then
              { block := c.block, winner := flipRepo correctRepo,
                inscriptionId := some remainingInscriptionId, winningSat := none, losingSat := none,
                reason := s!"Wrong sat claim, but tx position {pr} before {pc} in block {hr}" }
            else
              { block := c.block, winner := correctRepo,
                inscriptionId := some correctInscriptionId, winningSat := none, losingSat := none,
                reason := s!"Correct sat {actualSat}, could not determine remaining inscription timing" }
          | _, _ =>
            { block := c.block, winner := correctRepo,
              inscriptionId := some correctInscriptionId, winningSat := none, losingSat := none,
              reason := s!"Correct sat {actualSat}, could not determine remaining inscription timing" }
      | _, _ =>
        { block := c.block, winner := correctRepo,
          inscriptionId := some correctInscriptionId, winningSat := none, losingSat := none,
          reason := s!"Correct sat {actualSat}, could not determine remaining inscription timing" }
    | _, _ =>
      { block := c.block, winner := correctRepo,
        inscriptionId := some correctInscriptionId, winningSat := none, losingSat := none,
        reason := s!"Correct sat {actualSat}, invalid remaining inscription format" }

/-- `resolveIdenticalInscriptionConflict`: the Identical-Identity
Sub-protocol.  The surrounding `try/catch` only catches oracle exceptions,
which the pure oracles cannot raise. -/
def resolveIdenticalInscriptionConflict (P : Providers) (c : Conflict) : Verdict :=
  -- STEP 1: actual satoshi of the agreed-upon inscription
  match P.inscriptionSat c.repo1Id with
  | none =>
    { block := c.block, winner := .unknown, inscriptionId := some c.repo1Id,
      winningSat := none, losingSat := none,
      reason := "Could not determine actual satoshi" }
  | some actualSat =>
    -- STEP 2: compare the actual sat against each repo's claim
    let repo1SatMatch := actualSat = toString c.file1Sat
    let repo2SatMatch := actualSat = toString c.file2Sat
    -- STEP 3: identify the correct repo and the remaining sat
    if repo1SatMatch ∧ ¬repo2SatMatch then
      identicalSteps4to7 P c .repo1 c.repo1Id c.file2Sat actualSat
    else if repo2SatMatch ∧ ¬repo1SatMatch then
      identicalSteps4to7 P c .repo2 c.repo2Id c.file1Sat actualSat
    else if repo1SatMatch ∧ repo2SatMatch then
      { block := c.block, winner := .both, inscriptionId := some c.repo1Id,
        winningSat := none, losingSat := none,
        reason := s!"Both agree: inscription on sat {actualSat}" }
    else
      { block := c.block, winner := .unknown, inscriptionId := some c.repo1Id,
        winningSat := none, losingSat := none,
        reason := s!"Inscription on sat {actualSat} (neither repo correct)" }

/-- `resolveConflict`: the top-level First-is-First decision procedure.
Note the source tests `repo1Id === repo2Id` FIRST, so a conflict whose two
ids are both `'ID not found'` enters the identical-identity sub-protocol
and its `'Both IDs not found' → NEITHER` branch is unreachable. -/
def resolveConflict (P : Providers) (c : Conflict) : Verdict :=
  -- Case 1: same inscription ID
  if c.repo1Id = c.repo2Id then
    resolveIdenticalInscriptionConflict P c
  -- Case 2: one or both not found
  else if c.repo1Id = idNotFound ∧ c.repo2Id = idNotFound then
    { block := c.block, winner := .neither, inscriptionId := none,
      winningSat := none, losingSat := none, reason := "Both IDs not found" }
  else if c.repo1Id = idNotFound then
    { block := c.block, winner := .repo2, inscriptionId := some c.repo2Id,
      winningSat := none, losingSat := none, reason := "Repo1 ID not found" }
  else if c.repo2Id = idNotFound then
    { block := c.block, winner := .repo1, inscriptionId := some c.repo1Id,
      winningSat := none, losingSat := none, reason := "Repo2 ID not found" }
  else
    -- Case 3: different IDs — determine which inscription was made first
    match extractTxId c.repo1Id, extractTxId c.repo2Id with
    | some txid1, some txid2 =>
      let tx1Data := P.txPos txid1
      let tx2Data := P.txPos txid2
      -- STEP 1: compare inscription block heights (earlier block wins)
      match tx1Data.blockHeight, tx2Data.blockHeight with
      | some h1, some h2 =>
        if h1 < h2 then
          { block := c.block, winner := .repo1, inscriptionId := some c.repo1Id,
            winningSat := some c.file1Sat, losingSat := some c.file2Sat,
            reason := s!"Inscribed in block {h1} (before block {h2})" }
        else if h2 < h1 then
          { block := c.block, winner := .repo2, inscriptionId := some c.repo2Id,
            winningSat := some c.file2Sat, losingSat := some c.file1Sat,
            reason := s!"Inscribed in block {h2} (before block {h1})" }
        else
          -- STEP 2: same block — use transaction ordering
          match tx1Data.blockPosition, tx2Data.blockPosition with
          | some p1, some p2 =>
            if p1 < p2 then
              { block := c.block, winner := .repo1, inscriptionId := some c.repo1Id,
                winningSat := some c.file1Sat, losingSat := some c.file2Sat,
                reason := s!"Same block {h1}, tx position {p1} before {p2}" }
            else if p2 < p1 then
              { block := c.block, winner := .repo2, inscriptionId := some c.repo2Id,
                winningSat := some c.file2Sat, losingSat := some c.file1Sat,
                reason := s!"Same block {h2}, tx position {p2} before {p1}" }
            else
              { block := c.block, winner := .unknown, inscriptionId := none,
                winningSat := none, losingSat := none,
                reason := "Could not determine winner" }
          | _, _ =>
            { block := c.block, winner := .unknown, inscriptionId := none,
              winningSat := none, losingSat := none,
              reason := "Could not determine winner" }
      -- cases where data is missing
      | none, some _ =>
        { block := c.block, winner := .repo2, inscriptionId := some c.repo2Id,
          winningSat := some c.file2Sat, losingSat := some c.file1Sat,
          reason := "Repo1 tx not confirmed" }
      | some _, none =>
        { block := c.block, winner := .repo1, inscriptionId := some c.repo1Id,
          winningSat := some c.file1Sat, losingSat := some c.file2Sat,
          reason := "Repo2 tx not confirmed" }
      | none, none =>
        { block := c.block, winner := .unknown, inscriptionId := none,
          winningSat := none, losingSat := none,
          reason := "Could not determine winner" }
    | _, _ =>
      { block := c.block, winner := .unknown, inscriptionId := none,
        winningSat := none, losingSat := none,
        reason := "Invalid inscription format" }

/-! ## Provider access layer (true-bitmap.mjs)

`fetchFromAPI` routes transaction fetches over the ordered primary list
`[mempool, blockstream]` with per-provider quota counters; the per-block
txid-list fetch inside `getTxPositionInBlock` instead uses a hard-coded
fallthrough chain mempool → blockstream → blockchair → blockchain.info
that never consults those counters.

`fetchJSONWithRetry` is modelled by its final outcome per call (its internal
retries stay on the same provider and do not affect routing), and the
lightweight `verifyBlockstreamCredentials` ping is merged into the
immediately following blockstream attempt (it fires only just before one
and targets the same provider). -/

inductive ApiName
  | mempool
  | blockstream
  | blockchair
  | blockchaininfo
deriving DecidableEq, Repr

/-- The two providers of the `primaryApis` list of `fetchFromAPI`. -/
inductive PrimaryApi
  | mempool
  | blockstream
deriving DecidableEq, Repr

def PrimaryApi.toApiName : PrimaryApi → ApiName
  | .mempool => .mempool
  | .blockstream => .blockstream

/-- `primaryApis[i]`. -/
def primaryApi : Nat → Option PrimaryApi
  | 0 => some .mempool
  | 1 => some .blockstream
  | _ => none

/-- Outcome of one `fetchJSONWithRetry` call, as classified by the
`catch` in `fetchFromAPI`: success, a 429/rate-limit message, a 401
against blockstream, or any other network error. -/
inductive Outcome
  | ok (data : Nat)
  | rateLimited
  | unauthorized
  | netError
deriving DecidableEq, Repr

/-- One entry of `this.requestCounters`. -/
structure Counter where
  count : Nat
  resetAt : Nat
  exhausted : Bool
deriving DecidableEq, Repr

/-- Resolver-level mutable state touched by `fetchFromAPI`. -/
structure ApiState where
  activeApiIndex : Nat
  mempool : Counter
  blockstream : Counter
  /-- `this.blockstreamAuthHeader !== null` -/
  blockstreamAuth : Bool
  /-- `BLOCKSTREAM_CLIENT_ID`/`SECRET` present in the environment
  (what `refreshBlockstreamAuth` restores the header from) -/
  envCreds : Bool
deriving DecidableEq, Repr

def getCounter (s : ApiState) : PrimaryApi → Counter
  | .mempool => s.mempool
  | .blockstream => s.blockstream

def setCounter (s : ApiState) : PrimaryApi → Counter → ApiState
  | .mempool, c => { s with mempool := c }
  | .blockstream, c => { s with blockstream := c }

/-- Result of `fetchFromAPI`, extended with the trace of providers that
were actually sent a request (`result = none` embeds the final `throw`). -/
structure FetchResult where
  state : ApiState
  result : Option (ApiName × Nat)
  requests : List ApiName
deriving Repr

/-- One iteration of the `for (let i = this.activeApiIndex; ...)` loop of
`fetchFromAPI` at index `i`: `Sum.inl` is a `return`/final value,
`Sum.inr` is `continue` with the updated state and request trace. -/
def tryPrimary (resp : ApiName → Bool → Outcome) (now i : Nat) (api : PrimaryApi)
    (s : ApiState) (reqs : List ApiName) :
    FetchResult ⊕ (ApiState × List ApiName) :=
  -- blockstream: refresh the Authorization header from the environment
  let s := if api = .blockstream then { s with blockstreamAuth := s.envCreds } else s
  -- quota window reset: `if (Date.now() >= counter.resetAt)`
  let c0 := getCounter s api
  let c1 := if c0.resetAt ≤ now then
      { count := 0, resetAt := now + 3600000, exhausted := false }
    else c0
  let s := setCounter s api c1
  -- `if (counter.exhausted) continue`
  if c1.exhausted then .inr (s, reqs)
  else
    -- `counter.count++`, then the request
    let s := setCounter s api { c1 with count := c1.count + 1 }
    let authed := api = .blockstream ∧ s.blockstreamAuth
    match resp api.toApiName authed with
    | .ok d => .inl ⟨s, some (api.toApiName, d), reqs ++ [api.toApiName]⟩
    | .rateLimited =>
      -- mark exhausted and advance the active index past this provider
      let s := setCounter s api { getCounter s api with exhausted := true }
      .inr ({ s with activeApiIndex := max s.activeApiIndex (i + 1) },
            reqs ++ [api.toApiName])
    | .unauthorized =>
      if api = .blockstream then
        -- clear cached credentials and retry once unauthenticated
        let s := { s with blockstreamAuth := false }
        match resp ApiName.blockstream false with
        | .ok d => .inl ⟨s, some (.blockstream, d),
            reqs ++ [ApiName.blockstream, ApiName.blockstream]⟩
        | _ =>
          let s := setCounter s .blockstream
            { getCounter s .blockstream with exhausted := true }
          .inr ({ s with activeApiIndex := max s.activeApiIndex (i + 1) },
                reqs ++ [ApiName.blockstream, ApiName.blockstream])
      else
        -- generic error path: try the next provider
        .inr (s, reqs ++ [api.toApiName])
    | .netError => .inr (s, reqs ++ [api.toApiName])

/-- The provider loop over the remaining indices. -/
def fetchLoop (resp : ApiName → Bool → Outcome) (now : Nat) :
    List Nat → ApiState → List ApiName → FetchResult
  | [], s, reqs => ⟨s, none, reqs⟩
  | i :: rest, s, reqs =>
    match primaryApi i with
    | none => ⟨s, none, reqs⟩
    | some api =>
      match tryPrimary resp now i api s reqs with
      | .inl r => r
      | .inr (s', reqs') => fetchLoop resp now rest s' reqs'

/-- `fetchFromAPI`: iterate `i` from `this.activeApiIndex` to the end of
`primaryApis` (length 2). -/
def fetchFromAPI (resp : ApiName → Bool → Outcome) (now : Nat) (s : ApiState) :
    FetchResult :=
  fetchLoop resp now (List.range' s.activeApiIndex (2 - s.activeApiIndex)) s []

/-- The per-block txid-list fetch of `getTxPositionInBlock` on a block-cache
miss: a fixed nested-try fallthrough mempool → blockstream → blockchair →
blockchain.info, stopping at the first provider whose fetch succeeds.
It never reads `activeApiIndex` or the `exhausted` flags.  The returned
list is the trace of providers sent a request. -/
def blockTxidsAttempts (succeeds : ApiName → Bool) : List ApiName :=
  if succeeds .mempool then [.mempool]
  else if succeeds .blockstream then [.mempool, .blockstream]
  else if succeeds .blockchair then [.mempool, .blockstream, .blockchair]
  else [.mempool, .blockstream, .blockchair, .blockchaininfo]

/-! ## Batch reconciler registry cache (validator.mjs)

`fetchRegistryFile` memoizes fetched partition files in
`this.registryCache` keyed by `repoBase + filename` — but only successful
fetches: on error it warns and returns `[]` WITHOUT caching. -/

/-- A record of a canonical registry partition (`{block, iD, sat}`; the
identity lookup reads only `block` and `iD`). -/
structure RegRecord where
  block : Nat
  iD : String
deriving DecidableEq, Repr

/-- `getRegistryFileForBlock`: the partition filename covering a block
(`null` above the validity bound; a `Nat` block cannot be negative). -/
def getRegistryFileForBlock (block : Nat) : Option String :=
  if block > 999999999 then none
  else
    let rangeStart := block / 10000 * 10000
    let rangeEnd := rangeStart + 9999
    some s!"{rangeStart}-{rangeEnd}.json"

/-- `this.registryCache` plus a trace of the network fetches issued
(each element is the `cacheKey`/url of one issued fetch). -/
structure RegistryCache where
  cache : List (String × List RegRecord)
  fetchLog : List String
deriving Repr

/-- `fetchRegistryFile`: serve from cache, else fetch; a successful fetch
is cached, a failed one returns `[]` uncached. -/
def fetchRegistryFile (net : String → Except Unit (List RegRecord))
    (st : RegistryCache) (repoBase filename : String) :
    RegistryCache × List RegRecord :=
  let cacheKey := repoBase ++ filename
  match st.cache.find? (fun p => p.1 = cacheKey) with
  | some p => (st, p.2)
  | none =>
    match net cacheKey with
    | .ok data =>
      ({ cache := st.cache ++ [(cacheKey, data)],
         fetchLog := st.fetchLog ++ [cacheKey] }, data)
    | .error _ =>
      ({ st with fetchLog := st.fetchLog ++ [cacheKey] }, [])

/-- `getInscriptionIdForBlock`: find the partition file, fetch it (cached),
and return the `iD` of the record for exactly this block. -/
def getInscriptionIdForBlock (net : String → Except Unit (List RegRecord))
    (st : RegistryCache) (block : Nat) (repoBase : String) :
    RegistryCache × Option String :=
  match getRegistryFileForBlock block with
  | none => (st, none)
  | some registryFile =>
    let (st', registryData) := fetchRegistryFile net st repoBase registryFile
    (st', (registryData.find? (fun item => item.block = block)).map RegRecord.iD)

/-- A batch-reconciler run's identity lookups against one source, in
order, threading the memoized cache. -/
def runLookups (net : String → Except Unit (List RegRecord)) (repoBase : String)
    (blocks : List Nat) (st : RegistryCache) : RegistryCache :=
  blocks.foldl (fun s b => (getInscriptionIdForBlock net s b repoBase).1) st

/-! ## `RegistryComparator` constructor (src validator.mjs)

```
constructor() {
    this.repo1Base = ...; this.repo2Base = ...;
    this.repo1ListUrl = ...; this.repo2ListUrl = ...;
    this.results = []; this.registryCache = new Map();
    this.suppressFileOutput = options.suppressFileOutput || false;
}
```

The constructor declares no parameters and the module level of
validator.mjs binds no `options` either, so evaluating
`options.suppressFileOutput` raises a `ReferenceError` on every
construction.  We embed the construction as identifier resolution over the
recorded scope. -/

inductive JsError
  | referenceError (name : String)
deriving DecidableEq, Repr

/-- The parameter list of `RegistryComparator`'s constructor: empty
(`constructor()`). -/
def registryComparatorCtorParams : List String := []

/-- The identifiers bound at module level in src validator.mjs: the five
imports, the two `fileURLToPath` helpers, the helper function, the colour
table, the class itself and `main`. -/
def validatorModuleScope : List String :=
  ["https", "fs", "path", "fileURLToPath", "dirname", "SatComparator",
   "__filename", "__dirname", "getRegistryFileForBlock", "colors",
   "RegistryComparator", "main"]

/-- The fields a successful construction would produce (only reachable if
`options` were in scope). -/
structure RegistryComparatorState where
  repo1Base : String
  repo2Base : String
  repo1ListUrl : String
  repo2ListUrl : String
  suppressFileOutput : Bool
deriving DecidableEq, Repr

/-- `new RegistryComparator(...)` from src validator.mjs: the field
assignments up to the last line succeed, then `options.suppressFileOutput`
resolves the identifier `options` in the constructor scope, which throws a
`ReferenceError` when it is unbound.  The arguments are never bound (no
declared parameters). -/
def registryComparatorConstructor (args : List String) :
    Except JsError RegistryComparatorState :=
  let _ := args
  let scope := registryComparatorCtorParams ++ validatorModuleScope
  if "options" ∈ scope then
    .ok { repo1Base := "https://raw.githubusercontent.com/your-org/repo1/main/Registry/",
          repo2Base := "https://raw.githubusercontent.com/your-org/repo2/main/Registry/",
          repo1ListUrl := "https://api.github.com/repos/your-org/repo1/contents/Registry",
          repo2ListUrl := "https://api.github.com/repos/your-org/repo2/contents/Registry",
          suppressFileOutput := false }
  else
    .error (.referenceError "options")

/-! ## Duplicate competition (duplicate-competition.mjs) -/

/-- `results` of `resolveCompetition`: winner/loser records are
`{block, sat}` pairs, unresolved records keep the duplicate sat list. -/
structure CompetitionResults where
  winners : List (Nat × Nat)
  losers : List (Nat × Nat)
  unresolved : List (Nat × List Nat)
deriving DecidableEq, Repr

/-- Body of the `for (const [blockHeight, sats] of Object.entries(duplicates))`
loop. -/
def competitionStep (blockToSat : Nat → Option Nat) (res : CompetitionResults)
    (entry : Nat × List Nat) : CompetitionResults :=
  let blockNum := entry.1
  let sats := entry.2
  match blockToSat blockNum with
  | none =>
    { res with unresolved := res.unresolved ++ [(blockNum, sats)] }
  | some winner =>
    let losers := sats.filter (fun s => s ≠ winner)
    if losers ≠ [] then
      { res with
        winners := res.winners ++ [(blockNum, winner)],
        losers := res.losers ++ losers.map (fun loserSat => (blockNum, loserSat)) }
    else
      res

/-- `resolveCompetition duplicates blockToSat`: `duplicates` is the parsed
duplicate report (`blockHeight → sats`, keys unique since they come from a
JavaScript object), `blockToSat` the authoritative block→sat index. -/
def resolveCompetition (duplicates : List (Nat × List Nat))
    (blockToSat : Nat → Option Nat) : CompetitionResults :=
  duplicates.foldl (competitionStep blockToSat) ⟨[], [], []⟩

/-! ## Duplicate validator (duplicate-validator.mjs, `validateEntries`) -/

/-- A raw registry record as the validator sees it: the `block` and `sat`
fields may be absent (`none`); numeric values are embedded as `Int`
(JavaScript numbers). -/
structure RawEntry where
  block : Option Int
  sat : Option Int
deriving DecidableEq, Repr

/-- JavaScript falsiness of a possibly-absent number: absent
(`undefined`) and `0` are falsy. -/
def jsFalsyNum : Option Int → Bool
  | none => true
  | some n => n = 0

structure DupBlockRecord where
  file : String
  sat : Int
  entry : RawEntry
deriving DecidableEq, Repr

structure DupSatRecord where
  file : String
  block : Int
  entry : RawEntry
deriving DecidableEq, Repr

structure InvalidRecord where
  file : String
  entry : RawEntry
  reason : String
deriving DecidableEq, Repr

/-- `this.results` of `DuplicateValidator`; the `Map`s keyed by block/sat
become insertion-ordered association lists, the `Set`s insertion-ordered
lists. -/
structure ValidatorResults where
  totalEntries : Nat
  uniqueBlocks : List Int
  uniqueSats : List Int
  duplicateBlocks : List (Int × List DupBlockRecord)
  duplicateSats : List (Int × List DupSatRecord)
  invalidEntries : List InvalidRecord
deriving DecidableEq, Repr

/-- `duplicateBlocks.get(block).push(rec)` with the `if (!has) set(block, [])`
guard. -/
def dupBlockAdd (m : List (Int × List DupBlockRecord)) (k : Int)
    (v : DupBlockRecord) : List (Int × List DupBlockRecord) :=
  if (m.find? (fun p => p.1 = k)).isSome then
    m.map (fun p => if p.1 = k then (p.1, p.2 ++ [v]) else p)
  else
    m ++ [(k, [v])]

def dupSatAdd (m : List (Int × List DupSatRecord)) (k : Int)
    (v : DupSatRecord) : List (Int × List DupSatRecord) :=
  if (m.find? (fun p => p.1 = k)).isSome then
    m.map (fun p => if p.1 = k then (p.1, p.2 ++ [v]) else p)
  else
    m ++ [(k, [v])]

/-- Body of the `for (const entry of entries)` loop of `validateEntries`:
structure validation (`!entry.block` rejects a falsy block, including 0;
`!entry.sat && entry.sat !== 0` accepts sat 0), then duplicate tracking. -/
def validateEntriesStep (filename : String) (res : ValidatorResults)
    (entry : RawEntry) : ValidatorResults :=
  let res := { res with totalEntries := res.totalEntries + 1 }
  if jsFalsyNum entry.block then
    { res with invalidEntries :=
        res.invalidEntries ++ [⟨filename, entry, "Missing block field"⟩] }
  else if jsFalsyNum entry.sat ∧ entry.sat ≠ some 0 then
    { res with invalidEntries :=
        res.invalidEntries ++ [⟨filename, entry, "Missing or invalid sat field"⟩] }
  else
    let block := entry.block.getD 0
    let sat := entry.sat.getD 0
    let res :=
      if block ∉ res.uniqueBlocks then
        { res with uniqueBlocks := res.uniqueBlocks ++ [block] }
      else
        { res with duplicateBlocks :=
            dupBlockAdd res.duplicateBlocks block ⟨filename, sat, entry⟩ }
    if sat ∉ res.uniqueSats then
      { res with uniqueSats := res.uniqueSats ++ [sat] }
    else
      { res with duplicateSats :=
          dupSatAdd res.duplicateSats sat ⟨filename, block, entry⟩ }

/-- `validateEntries entries filename`, threading `this.results`. -/
def validateEntries (entries : List RawEntry) (filename : String)
    (res : ValidatorResults) : ValidatorResults :=
  entries.foldl (validateEntriesStep filename) res

/-! ## Spec-side predicates (statement apparatus, not source code) -/

/-- The spec's output order on two difference records, weakest reading:
whenever both records carry a disputed sat, the first must not exceed the
second.  (Records without a comparable sat are unconstrained, so refuting
this refutes every stronger reading of the sort contract.) -/
def satLeB (a b : DiffEntry) : Bool :=
  match a.satField, b.satField with
  | some sa, some sb => sa ≤ sb
  | _, _ => true

/-- "The differences list is sorted by disputed sat ascending". -/
def specSortedBySat (l : List DiffEntry) : Prop :=
  l.Pairwise (fun a b => satLeB a b = true)

/-- Once a provider is marked exhausted, the router's active index has
moved past it (index 0 = mempool). -/
def MempoolRetired (s : ApiState) : Prop :=
  s.mempool.exhausted = true → 1 ≤ s.activeApiIndex

/-- Once blockstream (index 1) is marked exhausted, the active index has
moved past the whole primary list. -/
def BlockstreamRetired (s : ApiState) : Prop :=
  s.blockstream.exhausted = true → 2 ≤ s.activeApiIndex

/-- State after one provider-loop iteration, whether it returned or
continued. -/
def stepState : FetchResult ⊕ (ApiState × List ApiName) → ApiState
  | .inl r => r.state
  | .inr p => p.1

/-- Request trace after one provider-loop iteration. -/
def stepReqs : FetchResult ⊕ (ApiState × List ApiName) → List ApiName
  | .inl r => r.requests
  | .inr p => p.2

/-- The memoization invariant of C7 for one cache key: the key has been
network-fetched at most once, and if it has been fetched it is cached. -/
def CachedOnce (k : String) (st : RegistryCache) : Prop :=
  st.fetchLog.count k ≤ 1 ∧
  (st.fetchLog.count k = 1 → (st.cache.find? fun p => p.1 = k).isSome)

/-! ## Concrete fixtures (used by witnesses and counterexamples) -/

/-- A well-formed txid: 64 hex characters. -/
def txA : String := String.mk (List.replicate 64 'a')

def txB : String := String.mk (List.replicate 64 'b')

/-- Inscription ids built over `txA`/`txB` with index 0. -/
def idA : String := txA ++ "i0"

def idB : String := txB ++ "i0"

/-- Providers that fail every lookup (all requests error out). -/
def pNone : Providers :=
  ⟨fun _ => ⟨none, none⟩, fun _ => none, fun _ _ => none⟩

/-- Providers placing `txA` at block 3 position 0 and every other tx at
block 5 position 1, with an inscription `idB` on every sat. -/
def pAB : Providers :=
  ⟨fun t => if t = txA then ⟨some 3, some 0⟩ else ⟨some 5, some 1⟩,
   fun _ => some "10",
   fun _ _ => some idB⟩

/-- A conflict whose two sides cite different well-formed identities. -/
def conflictAB : Conflict := ⟨5, idA, idB, 10, 20⟩

/-- A conflict in which both sides cite no identity (both ids are the
`'ID not found'` sentinel). -/
def conflictNotFound : Conflict := ⟨1, idNotFound, idNotFound, 1, 2⟩

/-- A fresh resolver state: index 0, both counters fresh, no credentials. -/
def apiState0 : ApiState :=
  ⟨0, ⟨0, 3600000, false⟩, ⟨0, 3600000, false⟩, false, false⟩

/-- A mid-run state right after mempool was rate-limited: mempool marked
exhausted and the active index advanced to 1. -/
def apiStateM : ApiState :=
  ⟨1, ⟨1, 3600000, true⟩, ⟨0, 3600000, false⟩, false, false⟩

/-- A network on which every registry fetch fails. -/
def failNet : String → Except Unit (List RegRecord) := fun _ => .error ()

/-- A network on which every registry fetch succeeds with one record. -/
def okNet : String → Except Unit (List RegRecord) := fun _ => .ok [⟨0, "x"⟩]

end BitmapIndexer

namespace BitmapIndexer

/-! # Theorems -/

/-! ## C1 — both sides cite no identity -/

/-- The identical-identity continuation only ever declares the correct repo
or its flip the winner. -/
theorem identicalSteps4to7_winner_cases (P : Providers) (c : Conflict)
    (w : Winner) (cid : String) (remSat : Nat) (actual : String) :
    (identicalSteps4to7 P c w cid remSat actual).winner = w ∨
    (identicalSteps4to7 P c w cid remSat actual).winner = flipRepo w := by
  unfold identicalSteps4to7
  repeat' (first | split | dsimp only)
  all_goals first | exact Or.inl rfl | exact Or.inr rfl

/-- The identical-identity sub-protocol never returns `NEITHER`. -/
theorem resolveIdentical_not_neither (P : Providers) (c : Conflict) :
    (resolveIdenticalInscriptionConflict P c).winner ≠ Winner.neither := by
  unfold resolveIdenticalInscriptionConflict
  cases h : P.inscriptionSat c.repo1Id with
  | none => simp
  | some a =>
    simp only
    split_ifs with h1 h2 h3
    · rcases identicalSteps4to7_winner_cases P c .repo1 c.repo1Id c.file2Sat a with
        hw | hw <;> simp [hw, flipRepo]
    · rcases identicalSteps4to7_winner_cases P c .repo2 c.repo2Id c.file1Sat a with
        hw | hw <;> simp [hw, flipRepo]
    · simp
    · simp

/-- C1: the claim fails on the code.  When both claimed ids are the
`'ID not found'` sentinel they are equal strings, so `resolveConflict`
takes its FIRST branch (`repo1Id === repo2Id`) and escalates to the
Identical-Identity Sub-protocol; the later `'Both IDs not found' → NEITHER`
branch is unreachable, and no verdict of the sub-protocol is `NEITHER`. -/
theorem resolveConflict_bothNotFound_escalates (P : Providers) (c : Conflict)
    (h1 : c.repo1Id = idNotFound) (h2 : c.repo2Id = idNotFound) :
    resolveConflict P c = resolveIdenticalInscriptionConflict P c ∧
    (resolveConflict P c).winner ≠ Winner.neither := by
  have heq : c.repo1Id = c.repo2Id := by rw [h1, h2]
  have hres : resolveConflict P c = resolveIdenticalInscriptionConflict P c := by
    unfold resolveConflict
    rw [if_pos heq]
  exact ⟨hres, hres ▸ resolveIdentical_not_neither P c⟩

/-- C1 witness: at the concrete both-not-found conflict with all-failing
providers, the resolver escalates and does not return `NEITHER` (it in
fact returns `UNKNOWN`, "Could not determine actual satoshi"). -/
theorem resolveConflict_bothNotFound_escalates_witness :
    resolveConflict pNone conflictNotFound =
      resolveIdenticalInscriptionConflict pNone conflictNotFound ∧
    (resolveConflict pNone conflictNotFound).winner ≠ Winner.neither :=
  resolveConflict_bothNotFound_escalates pNone conflictNotFound rfl rfl

/-- C1 evaluation at the failing input: the verdict actually produced is
`UNKNOWN`, not `NEITHER`. -/
theorem resolveConflict_bothNotFound_eval :
    (resolveConflict pNone conflictNotFound).winner = Winner.unknown ∧
    (resolveConflict pNone conflictNotFound).reason =
      "Could not determine actual satoshi" := by
  constructor <;> rfl

/-! ## C8 — duplicated blocks absent from the authoritative index -/

/-- A winner record for block `b` is only ever pushed when the
authoritative index has an entry for `b`. -/
theorem competitionStep_winner_block {blockToSat : Nat → Option Nat}
    {res : CompetitionResults} {entry : Nat × List Nat} {b s : Nat}
    (h : (b, s) ∈ (competitionStep blockToSat res entry).winners) :
    (b, s) ∈ res.winners ∨ (blockToSat b).isSome := by
  unfold competitionStep at h
  cases hb : blockToSat entry.1 with
  | none => simp only [hb] at h; exact Or.inl h
  | some w =>
    simp only [hb] at h
    split_ifs at h with hl
    · simp only [List.mem_append, List.mem_singleton] at h
      rcases h with h | h
      · exact Or.inl h
      · right
        have hb' : b = entry.1 := congrArg Prod.fst h
        rw [hb', hb]
        rfl
    · exact Or.inl h

/-- A loser record for block `b` is only ever pushed when the
authoritative index has an entry for `b`. -/
theorem competitionStep_loser_block {blockToSat : Nat → Option Nat}
    {res : CompetitionResults} {entry : Nat × List Nat} {b s : Nat}
    (h : (b, s) ∈ (competitionStep blockToSat res entry).losers) :
    (b, s) ∈ res.losers ∨ (blockToSat b).isSome := by
  unfold competitionStep at h
  cases hb : blockToSat entry.1 with
  | none => simp only [hb] at h; exact Or.inl h
  | some w =>
    simp only [hb] at h
    split_ifs at h with hl
    · simp only [List.mem_append] at h
      rcases h with h | h
      · exact Or.inl h
      · right
        simp only [List.mem_map] at h
        obtain ⟨x, _, hx⟩ := h
        have hb' : b = entry.1 := (congrArg Prod.fst hx).symm
        rw [hb', hb]
        rfl
    · exact Or.inl h

theorem competition_foldl_winner_block {blockToSat : Nat → Option Nat}
    (l : List (Nat × List Nat)) (res : CompetitionResults) {b s : Nat}
    (h : (b, s) ∈ (l.foldl (competitionStep blockToSat) res).winners) :
    (b, s) ∈ res.winners ∨ (blockToSat b).isSome := by
  induction l generalizing res with
  | nil => exact Or.inl h
  | cons e t ih =>
    rcases ih (competitionStep blockToSat res e) h with h' | h'
    · exact competitionStep_winner_block h'
    · exact Or.inr h'

theorem competition_foldl_loser_block {blockToSat : Nat → Option Nat}
    (l : List (Nat × List Nat)) (res : CompetitionResults) {b s : Nat}
    (h : (b, s) ∈ (l.foldl (competitionStep blockToSat) res).losers) :
    (b, s) ∈ res.losers ∨ (blockToSat b).isSome := by
  induction l generalizing res with
  | nil => exact Or.inl h
  | cons e t ih =>
    rcases ih (competitionStep blockToSat res e) h with h' | h'
    · exact competitionStep_loser_block h'
    · exact Or.inr h'

/-- The unresolved list only grows along the fold. -/
theorem competition_foldl_unresolved_mono {blockToSat : Nat → Option Nat}
    (l : List (Nat × List Nat)) (res : CompetitionResults) {x : Nat × List Nat}
    (h : x ∈ res.unresolved) :
    x ∈ (l.foldl (competitionStep blockToSat) res).unresolved := by
  induction l generalizing res with
  | nil => exact h
  | cons e t ih =>
    apply ih
    unfold competitionStep
    cases hb : blockToSat e.1 with
    | none => simp only [hb]; exact List.mem_append_left _ h
    | some w => simp only [hb]; split_ifs <;> exact h

theorem competition_foldl_unresolved_mem {blockToSat : Nat → Option Nat}
    (l : List (Nat × List Nat)) (res : CompetitionResults) {b : Nat}
    {sats : List Nat} (hmem : (b, sats) ∈ l) (hnone : blockToSat b = none) :
    (b, sats) ∈ (l.foldl (competitionStep blockToSat) res).unresolved := by
  induction l generalizing res with
  | nil => cases hmem
  | cons e t ih =>
    rw [List.foldl_cons]
    rcases List.mem_cons.mp hmem with heq | hmem'
    · apply competition_foldl_unresolved_mono
      subst heq
      unfold competitionStep
      dsimp only
      simp only [hnone]
      exact List.mem_append_right _ (List.mem_singleton.mpr rfl)
    · exact ih _ hmem'

/-- C8: a duplicated block with no entry in the authoritative block→sat
index lands (with its duplicate sats) in `unresolved`, and the competition
stage declares no winner and no losers for it. -/
theorem resolveCompetition_unresolved_blocks
    (duplicates : List (Nat × List Nat)) (blockToSat : Nat → Option Nat)
    (b : Nat) (sats : List Nat)
    (hmem : (b, sats) ∈ duplicates) (hnone : blockToSat b = none) :
    (b, sats) ∈ (resolveCompetition duplicates blockToSat).unresolved ∧
    (∀ s, (b, s) ∉ (resolveCompetition duplicates blockToSat).winners) ∧
    (∀ s, (b, s) ∉ (resolveCompetition duplicates blockToSat).losers) := by
  refine ⟨competition_foldl_unresolved_mem duplicates _ hmem hnone, ?_, ?_⟩
  · intro s hs
    rcases competition_foldl_winner_block duplicates _ hs with h | h
    · simp at h
    · rw [hnone] at h; cases h
  · intro s hs
    rcases competition_foldl_loser_block duplicates _ hs with h | h
    · simp at h
    · rw [hnone] at h; cases h

/-- C8 witness: one duplicated block 5 with sats 10 and 20 and an empty
authoritative index. -/
theorem resolveCompetition_unresolved_blocks_witness :
    (5, [10, 20]) ∈ (resolveCompetition [(5, [10, 20])] (fun _ => none)).unresolved ∧
    (∀ s, (5, s) ∉ (resolveCompetition [(5, [10, 20])] (fun _ => none)).winners) ∧
    (∀ s, (5, s) ∉ (resolveCompetition [(5, [10, 20])] (fun _ => none)).losers) :=
  resolveCompetition_unresolved_blocks [(5, [10, 20])] (fun _ => none) 5 [10, 20]
    (List.mem_singleton.mpr rfl) rfl

/-! ## C9 — the `RegistryComparator` constructor always throws -/

/-- C9: for every argument list, constructing the batch reconciler of
src validator.mjs throws a `ReferenceError`: the constructor reads
`options.suppressFileOutput` but neither its (empty) parameter list nor
the module scope binds `options`. -/
theorem registryComparatorConstructor_always_throws (args : List String) :
    registryComparatorConstructor args = .error (.referenceError "options") := by
  rfl

/-! ## C10 — falsy block rejected, sat 0 accepted -/

/-- C10: a record with a falsy `block` field (0, or the field absent) is
recorded as an invalid entry with reason "Missing block field" and changes
nothing else (in particular neither `uniqueBlocks` nor the duplicate maps),
whereas a record with `sat = 0` (and a truthy block) is accepted as valid:
it is not recorded invalid and its sat 0 is tracked in `uniqueSats`. -/
theorem validateEntries_falsy_block_invalid_sat_zero_valid
    (filename : String) (res : ValidatorResults) (entry : RawEntry)
    (hblock : jsFalsyNum entry.block = true)
    (entry' : RawEntry) (hblock' : jsFalsyNum entry'.block = false)
    (hsat' : entry'.sat = some 0) :
    validateEntriesStep filename res entry =
      { res with
        totalEntries := res.totalEntries + 1,
        invalidEntries :=
          res.invalidEntries ++ [⟨filename, entry, "Missing block field"⟩] } ∧
    (validateEntriesStep filename res entry').invalidEntries =
      res.invalidEntries ∧
    (0 : Int) ∈ (validateEntriesStep filename res entry').uniqueSats := by
  unfold validateEntriesStep
  refine ⟨by rw [if_pos hblock], ?_, ?_⟩
  · rw [if_neg (by simp [hblock']), if_neg (by simp [hsat'])]
    dsimp only
    split_ifs <;> rfl
  · rw [if_neg (by simp [hblock']), if_neg (by simp [hsat'])]
    dsimp only
    rw [hsat']
    simp only [Option.getD_some]
    split_ifs with hb hs hs <;> simp_all

/-- C10 witness: `{block: 0, sat: 7}` is invalid ("Missing block field"),
`{block: 3, sat: 0}` is valid with sat 0 tracked. -/
theorem validateEntries_falsy_block_witness :
    validateEntriesStep "f.json" ⟨0, [], [], [], [], []⟩ ⟨some 0, some 7⟩ =
      { totalEntries := 1, uniqueBlocks := [], uniqueSats := [],
        duplicateBlocks := [], duplicateSats := [],
        invalidEntries :=
          [⟨"f.json", ⟨some 0, some 7⟩, "Missing block field"⟩] } ∧
    (validateEntriesStep "f.json" ⟨0, [], [], [], [], []⟩ ⟨some 3, some 0⟩).invalidEntries = [] ∧
    (0 : Int) ∈ (validateEntriesStep "f.json" ⟨0, [], [], [], [], []⟩ ⟨some 3, some 0⟩).uniqueSats := by
  have h := validateEntries_falsy_block_invalid_sat_zero_valid "f.json"
    ⟨0, [], [], [], [], []⟩ ⟨some 0, some 7⟩ (by decide) ⟨some 3, some 0⟩
    (by decide) rfl
  exact ⟨h.1, h.2.1, h.2.2⟩

/-! ## Shared facts about the diff engine's containers -/

theorem mem_setAdd {l : List Nat} {x y : Nat} :
    y ∈ setAdd l x ↔ y ∈ l ∨ y = x := by
  unfold setAdd
  split_ifs with hmem
  · constructor
    · exact Or.inl
    · rintro (h | rfl)
      · exact h
      · exact hmem
  · simp

theorem mem_foldl_setAdd {l acc : List Nat} {y : Nat} :
    y ∈ l.foldl setAdd acc ↔ y ∈ acc ∨ y ∈ l := by
  induction l generalizing acc with
  | nil => simp
  | cons x t ih =>
    rw [List.foldl_cons, ih, mem_setAdd]
    simp only [List.mem_cons]
    tauto

theorem mem_jsSet {l : List Nat} {y : Nat} : y ∈ jsSet l ↔ y ∈ l := by
  unfold jsSet
  rw [mem_foldl_setAdd]
  simp

theorem foldl_setAdd_of_subset {l acc : List Nat} (h : ∀ x ∈ l, x ∈ acc) :
    l.foldl setAdd acc = acc := by
  induction l generalizing acc with
  | nil => rfl
  | cons x t ih =>
    rw [List.foldl_cons]
    rw [setAdd, if_pos (h x (List.mem_cons_self x t))]
    exact ih fun z hz => h z (List.mem_cons_of_mem x hz)

theorem foldl_setAdd_eq_append (l : List Nat) (acc : List Nat)
    (h : (acc ++ l).Nodup) : l.foldl setAdd acc = acc ++ l := by
  induction l generalizing acc with
  | nil => simp
  | cons x t ih =>
    rw [List.foldl_cons]
    have hx : x ∉ acc := by
      intro hmem
      exact (List.nodup_append.mp h).2.2 hmem (List.mem_cons_self x t)
    rw [setAdd, if_neg hx]
    rw [ih (acc ++ [x]) (by simpa [List.append_assoc] using h)]
    simp

theorem jsSet_nodup_self {l : List Nat} (h : l.Nodup) : jsSet l = l := by
  unfold jsSet
  simpa using foldl_setAdd_eq_append l [] (by simpa using h)

theorem jsSet_append_self (l : List Nat) : jsSet (l ++ l) = jsSet l := by
  unfold jsSet
  rw [List.foldl_append]
  exact foldl_setAdd_of_subset fun x hx => mem_jsSet.mpr hx

theorem mapGet_isSome_of_mem_keys {l : List (Nat × Nat)} {k : Nat}
    (h : k ∈ l.map Prod.fst) : (mapGet l k).isSome := by
  unfold mapGet
  obtain ⟨p, hp, hk⟩ := List.mem_map.mp h
  have : (l.find? fun q => q.1 = k).isSome := by
    rw [List.find?_isSome]
    exact ⟨p, hp, by simp [hk]⟩
  cases hfind : l.find? fun q => q.1 = k with
  | none => rw [hfind] at this; cases this
  | some q => simp

theorem mapGet_eq_none_of_not_mem_keys {l : List (Nat × Nat)} {k : Nat}
    (h : k ∉ l.map Prod.fst) : mapGet l k = none := by
  unfold mapGet
  rw [List.find?_eq_none.mpr]
  · rfl
  · intro p hp hk
    exact h (List.mem_map.mpr ⟨p, hp, by simpa using hk⟩)

/-! ## C4 — diff of a dataset against itself -/

/-- When a sat is present (identically) on both sides, the sat loop only
bumps the match counter. -/
theorem satStep_self (A : List (Nat × Nat)) (st : DiffState) (sat : Nat)
    (h : (mapGet A sat).isSome) :
    satStep A A st sat =
      { st with stats := { st.stats with matches' := st.stats.matches' + 1 } } := by
  unfold satStep
  obtain ⟨b, hb⟩ := Option.isSome_iff_exists.mp h
  rw [hb]
  simp

theorem foldl_satStep_self (A : List (Nat × Nat)) (l : List Nat) (st : DiffState)
    (h : ∀ sat ∈ l, (mapGet A sat).isSome) :
    (l.foldl (satStep A A) st).diffs = st.diffs ∧
    (l.foldl (satStep A A) st).stats.matches' = st.stats.matches' + l.length ∧
    (l.foldl (satStep A A) st).stats.conflicts = st.stats.conflicts := by
  induction l generalizing st with
  | nil => simp
  | cons x t ih =>
    rw [List.foldl_cons, satStep_self A st x (h x (List.mem_cons_self x t))]
    obtain ⟨h1, h2, h3⟩ := ih _ fun s hs => h s (List.mem_cons_of_mem x hs)
    refine ⟨h1, ?_, h3⟩
    rw [h2]
    show st.stats.matches' + 1 + t.length = st.stats.matches' + (x :: t).length
    simp only [List.length_cons]
    omega

/-- With identical inverse maps the block loop never fires. -/
theorem blockStep_self (r : List (Nat × Nat)) (st : DiffState) (b : Nat) :
    blockStep r r st b = st := by
  unfold blockStep
  dsimp only
  rw [if_neg]
  rintro ⟨-, -, hne⟩
  exact hne rfl

theorem foldl_blockStep_self (r : List (Nat × Nat)) (l : List Nat)
    (st : DiffState) : l.foldl (blockStep r r) st = st := by
  induction l with
  | nil => rfl
  | cons x t ih => rw [List.foldl_cons, blockStep_self, ih]

/-- C4 (amended): diffing a dataset against itself classifies every key as
a MATCH — but only in `stats` (`matches = |A|`, zero conflicts); the
differences list it yields is empty, because the source never pushes MATCH
records into `this.differences`. -/
theorem diff_self_all_match (A : List (Nat × Nat))
    (h : (A.map Prod.fst).Nodup) :
    (compareFiles A A).diffs = [] ∧
    (compareFiles A A).stats.matches' = A.length ∧
    (compareFiles A A).stats.conflicts = 0 := by
  unfold compareFiles
  dsimp only
  have hsats : jsSet (A.map Prod.fst ++ A.map Prod.fst) = A.map Prod.fst := by
    rw [jsSet_append_self, jsSet_nodup_self h]
  rw [hsats, foldl_blockStep_self]
  obtain ⟨h1, h2, h3⟩ := foldl_satStep_self A (A.map Prod.fst)
    { diffs := [],
      stats := { file1Count := A.length, file2Count := A.length,
                 matches' := 0, conflicts := 0, file1Only := 0, file2Only := 0 } }
    fun sat hs => mapGet_isSome_of_mem_keys hs
  refine ⟨?_, ?_, ?_⟩
  · dsimp only
    rw [h1]
    rfl
  · dsimp only
    rw [h2]
    simp
  · dsimp only
    rw [h3]

/-- C4 counterexample: for `A = [(sat 100, block 5)]` the claim's
`|A|`-many MATCH entries do not exist — the differences list is empty
(`0 ≠ 1` entries) and the match is only counted in `stats`. -/
theorem diff_self_counterexample :
    (compareFiles [(100, 5)] [(100, 5)]).diffs = [] ∧
    (compareFiles [(100, 5)] [(100, 5)]).diffs.length ≠ 1 ∧
    (compareFiles [(100, 5)] [(100, 5)]).stats.matches' = 1 := by
  decide

/-- C4 witness for the amended statement, at `A = [(100, 5)]`. -/
theorem diff_self_all_match_witness :
    (compareFiles [(100, 5)] [(100, 5)]).diffs = [] ∧
    (compareFiles [(100, 5)] [(100, 5)]).stats.matches' = 1 ∧
    (compareFiles [(100, 5)] [(100, 5)]).stats.conflicts = 0 :=
  diff_self_all_match [(100, 5)] (by decide)

/-! ## C3 — diff of disjoint-key datasets -/

/-- The predicate "this record is an ONLY_IN entry". -/
def isOnlyEntry (e : DiffEntry) : Bool :=
  e.isFile1Only || e.isFile2Only

theorem satStep_left {A B : List (Nat × Nat)} {st : DiffState} {sat b : Nat}
    (hA : mapGet A sat = some b) (hB : mapGet B sat = none) :
    satStep A B st sat =
      { diffs := st.diffs ++ [.file1Only sat b
          s!"Sat {sat} only exists in File1 (block {b})"],
        stats := { st.stats with file1Only := st.stats.file1Only + 1 } } := by
  unfold satStep
  rw [hA, hB]

theorem satStep_right {A B : List (Nat × Nat)} {st : DiffState} {sat b : Nat}
    (hA : mapGet A sat = none) (hB : mapGet B sat = some b) :
    satStep A B st sat =
      { diffs := st.diffs ++ [.file2Only sat b
          s!"Sat {sat} only exists in File2 (block {b})"],
        stats := { st.stats with file2Only := st.stats.file2Only + 1 } } := by
  unfold satStep
  rw [hA, hB]

/-- Along the sat loop over one-sided keys, each iteration appends exactly
one ONLY entry and never touches matches or conflicts. -/
theorem foldl_satStep_disjoint (A B : List (Nat × Nat)) (l : List Nat)
    (st : DiffState)
    (h : ∀ sat ∈ l,
        ((mapGet A sat).isSome ∧ mapGet B sat = none) ∨
        (mapGet A sat = none ∧ (mapGet B sat).isSome)) :
    (∀ e ∈ (l.foldl (satStep A B) st).diffs, e ∈ st.diffs ∨ isOnlyEntry e = true) ∧
    ((l.foldl (satStep A B) st).diffs.countP isOnlyEntry =
      st.diffs.countP isOnlyEntry + l.length) ∧
    (l.foldl (satStep A B) st).stats.matches' = st.stats.matches' ∧
    (l.foldl (satStep A B) st).stats.conflicts = st.stats.conflicts := by
  induction l generalizing st with
  | nil => exact ⟨fun e he => Or.inl he, by simp, rfl, rfl⟩
  | cons x t ih =>
    rw [List.foldl_cons]
    have hx := h x (List.mem_cons_self x t)
    have hrest : ∀ sat ∈ t, _ := fun sat hs => h sat (List.mem_cons_of_mem x hs)
    -- the step appends one ONLY entry `en`
    obtain ⟨en, hd, hen, hm, hc⟩ :
        ∃ en, (satStep A B st x).diffs = st.diffs ++ [en] ∧
          isOnlyEntry en = true ∧
          (satStep A B st x).stats.matches' = st.stats.matches' ∧
          (satStep A B st x).stats.conflicts = st.stats.conflicts := by
      rcases hx with ⟨hAs, hBn⟩ | ⟨hAn, hBs⟩
      · obtain ⟨b, hb⟩ := Option.isSome_iff_exists.mp hAs
        rw [satStep_left hb hBn]
        exact ⟨_, rfl, rfl, rfl, rfl⟩
      · obtain ⟨b, hb⟩ := Option.isSome_iff_exists.mp hBs
        rw [satStep_right hAn hb]
        exact ⟨_, rfl, rfl, rfl, rfl⟩
    obtain ⟨ih1, ih2, ih3, ih4⟩ := ih (satStep A B st x) hrest
    refine ⟨?_, ?_, ?_, ?_⟩
    · intro e he
      rcases ih1 e he with hmem | honly
      · rw [hd] at hmem
        rcases List.mem_append.mp hmem with hmem' | hsingle
        · exact Or.inl hmem'
        · refine Or.inr ?_
          rw [List.mem_singleton.mp hsingle]
          exact hen
      · exact Or.inr honly
    · rw [ih2, hd, List.countP_append]
      simp only [List.countP_cons, List.countP_nil, hen, if_true, List.length_cons]
      omega
    · rw [ih3, hm]
    · rw [ih4, hc]

/-- The block loop appends only BLOCK_CONFLICT records and never touches
the stats. -/
theorem foldl_blockStep_shape (r1 r2 : List (Nat × Nat)) (l : List Nat)
    (st : DiffState) :
    (∀ e ∈ (l.foldl (blockStep r1 r2) st).diffs,
        e ∈ st.diffs ∨ e.isBlockConflict = true) ∧
    ((l.foldl (blockStep r1 r2) st).diffs.countP isOnlyEntry =
      st.diffs.countP isOnlyEntry) ∧
    (l.foldl (blockStep r1 r2) st).stats = st.stats := by
  induction l generalizing st with
  | nil => exact ⟨fun e he => Or.inl he, rfl, rfl⟩
  | cons x t ih =>
    rw [List.foldl_cons]
    obtain ⟨ih1, ih2, ih3⟩ := ih (blockStep r1 r2 st x)
    have hstep :
        ((blockStep r1 r2 st x).diffs = st.diffs ∨
          ∃ f1 f2 d, (blockStep r1 r2 st x).diffs =
            st.diffs ++ [.blockConflict x f1 f2 d]) ∧
        (blockStep r1 r2 st x).stats = st.stats := by
      unfold blockStep
      dsimp only
      split_ifs
      · exact ⟨Or.inr ⟨_, _, _, rfl⟩, rfl⟩
      · exact ⟨Or.inl rfl, rfl⟩
    refine ⟨?_, ?_, ?_⟩
    · intro e he
      rcases ih1 e he with hmem | hbc
      · rcases hstep.1 with hd | ⟨f1, f2, d, hd⟩
        · exact Or.inl (hd ▸ hmem)
        · rw [hd] at hmem
          rcases List.mem_append.mp hmem with hmem' | hsingle
          · exact Or.inl hmem'
          · exact Or.inr (List.mem_singleton.mp hsingle ▸ rfl)
      · exact Or.inr hbc
    · rw [ih2]
      rcases hstep.1 with hd | ⟨f1, f2, d, hd⟩
      · rw [hd]
      · rw [hd, List.countP_append]
        simp [isOnlyEntry, DiffEntry.isFile1Only, DiffEntry.isFile2Only]
    · rw [ih3, hstep.2]

theorem mem_stableInsert {cmp : DiffEntry → DiffEntry → Int} {x y : DiffEntry}
    {l : List DiffEntry} :
    y ∈ stableInsert cmp x l ↔ y = x ∨ y ∈ l := by
  induction l with
  | nil => simp [stableInsert]
  | cons z t ih =>
    rw [stableInsert]
    split_ifs
    · rw [List.mem_cons, ih]
      simp [List.mem_cons]
      tauto
    · simp [List.mem_cons]

theorem countP_stableInsert (cmp : DiffEntry → DiffEntry → Int) (x : DiffEntry)
    (l : List DiffEntry) (p : DiffEntry → Bool) :
    (stableInsert cmp x l).countP p =
      l.countP p + (if p x then 1 else 0) := by
  induction l with
  | nil => simp [stableInsert, List.countP_cons]
  | cons z t ih =>
    rw [stableInsert]
    by_cases hc : cmp z x ≤ 0
    · rw [if_pos hc]
      cases hpx : p x <;> cases hpz : p z <;>
        simp [List.countP_cons, ih, hpx, hpz]
    · rw [if_neg hc]
      cases hpx : p x <;> cases hpz : p z <;>
        simp [List.countP_cons, hpx, hpz]

theorem mem_jsStableSort {cmp : DiffEntry → DiffEntry → Int} {l : List DiffEntry}
    {y : DiffEntry} : y ∈ jsStableSort cmp l ↔ y ∈ l := by
  suffices h : ∀ acc : List DiffEntry,
      y ∈ l.foldl (fun acc x => stableInsert cmp x acc) acc ↔ y ∈ acc ∨ y ∈ l by
    unfold jsStableSort
    rw [h []]
    simp
  induction l with
  | nil => simp
  | cons x t ih =>
    intro acc
    rw [List.foldl_cons, ih, mem_stableInsert]
    simp [List.mem_cons]
    tauto

theorem countP_jsStableSort (cmp : DiffEntry → DiffEntry → Int)
    (l : List DiffEntry) (p : DiffEntry → Bool) :
    (jsStableSort cmp l).countP p = l.countP p := by
  suffices h : ∀ acc : List DiffEntry,
      (l.foldl (fun acc x => stableInsert cmp x acc) acc).countP p =
        acc.countP p + l.countP p by
    unfold jsStableSort
    rw [h []]
    simp
  induction l with
  | nil => simp
  | cons x t ih =>
    intro acc
    rw [List.foldl_cons, ih, countP_stableInsert, List.countP_cons]
    omega

/-- C3 (amended): for disjoint-key datasets the diff yields only
ONLY_IN_A, ONLY_IN_B — and possibly BLOCK_CONFLICT — entries; the ONLY
entries number exactly `|A| + |B|`, and there are zero MATCH
classifications and zero SAT_CONFLICT entries.  (A BLOCK_CONFLICT can
arise from disjoint sat sets when two different sats claim the same
block, which the original claim ruled out.) -/
theorem diff_disjoint_entries (A B : List (Nat × Nat))
    (hA : (A.map Prod.fst).Nodup) (hB : (B.map Prod.fst).Nodup)
    (hdisj : ∀ k ∈ A.map Prod.fst, k ∉ B.map Prod.fst) :
    (∀ e ∈ (compareFiles A B).diffs,
       e.isFile1Only = true ∨ e.isFile2Only = true ∨ e.isBlockConflict = true) ∧
    (compareFiles A B).diffs.countP isOnlyEntry = A.length + B.length ∧
    (compareFiles A B).stats.matches' = 0 ∧
    (compareFiles A B).stats.conflicts = 0 := by
  have hnodup : (A.map Prod.fst ++ B.map Prod.fst).Nodup :=
    List.nodup_append.mpr ⟨hA, hB, fun a ha hb => hdisj a ha hb⟩
  have honesided : ∀ sat ∈ A.map Prod.fst ++ B.map Prod.fst,
      ((mapGet A sat).isSome ∧ mapGet B sat = none) ∨
      (mapGet A sat = none ∧ (mapGet B sat).isSome) := by
    intro sat hs
    rcases List.mem_append.mp hs with hsA | hsB
    · exact Or.inl ⟨mapGet_isSome_of_mem_keys hsA,
        mapGet_eq_none_of_not_mem_keys (hdisj sat hsA)⟩
    · refine Or.inr ⟨mapGet_eq_none_of_not_mem_keys ?_,
        mapGet_isSome_of_mem_keys hsB⟩
      intro hsA
      exact hdisj sat hsA hsB
  unfold compareFiles
  dsimp only
  rw [jsSet_nodup_self hnodup]
  obtain ⟨s1, s2, s3, s4⟩ := foldl_satStep_disjoint A B
    (A.map Prod.fst ++ B.map Prod.fst)
    { diffs := [],
      stats := { file1Count := A.length, file2Count := B.length,
                 matches' := 0, conflicts := 0, file1Only := 0, file2Only := 0 } }
    honesided
  obtain ⟨b1, b2, b3⟩ := foldl_blockStep_shape (buildBlockToSat A)
    (buildBlockToSat B)
    (jsSet ((buildBlockToSat A).map Prod.fst ++ (buildBlockToSat B).map Prod.fst))
    (List.foldl (satStep A B)
      { diffs := [],
        stats := { file1Count := A.length, file2Count := B.length,
                   matches' := 0, conflicts := 0, file1Only := 0, file2Only := 0 } }
      (A.map Prod.fst ++ B.map Prod.fst))
  refine ⟨?_, ?_, ?_, ?_⟩
  · intro e he
    have he' := mem_jsStableSort.mp he
    rcases b1 e he' with hmem | hbc
    · rcases s1 e hmem with hmem' | honly
      · cases hmem'
      · rcases Bool.or_eq_true_iff.mp honly with h1 | h2
        · exact Or.inl h1
        · exact Or.inr (Or.inl h2)
    · exact Or.inr (Or.inr hbc)
  · rw [countP_jsStableSort, b2, s2]
    simp
  · rw [b3, s3]
  · rw [b3, s4]

/-- C3 counterexample: `A = [(sat 100, block 5)]`, `B = [(sat 200, block 5)]`
have disjoint sat sets, yet the diff has three entries (not
`|A| + |B| = 2`), one of them a BLOCK_CONFLICT. -/
theorem diff_disjoint_counterexample :
    ((100 : Nat) ∉ ([200] : List Nat)) ∧
    (compareFiles [(100, 5)] [(200, 5)]).diffs.length = 3 ∧
    (compareFiles [(100, 5)] [(200, 5)]).diffs.countP
      (fun e => e.isBlockConflict) = 1 := by
  decide

/-- C3 witness for the amended statement, at the same disjoint pair. -/
theorem diff_disjoint_entries_witness :
    (∀ e ∈ (compareFiles [(100, 5)] [(200, 5)]).diffs,
       e.isFile1Only = true ∨ e.isFile2Only = true ∨ e.isBlockConflict = true) ∧
    (compareFiles [(100, 5)] [(200, 5)]).diffs.countP isOnlyEntry = 2 ∧
    (compareFiles [(100, 5)] [(200, 5)]).stats.matches' = 0 ∧
    (compareFiles [(100, 5)] [(200, 5)]).stats.conflicts = 0 :=
  diff_disjoint_entries [(100, 5)] [(200, 5)] (by decide) (by decide)
    (by decide)

/-! ## C5 — sort order of the differences list -/

theorem jsTruthy_satField {e : DiffEntry} (h : jsTruthy e.satField = true) :
    ∃ s, e.satField = some s ∧ s ≠ 0 := by
  unfold jsTruthy at h
  cases hs : e.satField with
  | none => rw [hs] at h; simp at h
  | some s =>
    rw [hs] at h
    refine ⟨s, rfl, ?_⟩
    simpa using h

theorem satLeB_iff {a b : DiffEntry} {sa sb : Nat}
    (ha : a.satField = some sa) (hb : b.satField = some sb) :
    satLeB a b = true ↔ sa ≤ sb := by
  unfold satLeB
  rw [ha, hb]
  simp

/-- For two records both carrying a nonzero sat, the source comparator
orders exactly by the sat values. -/
theorem jsCmp_le_iff {a b : DiffEntry} {sa sb : Nat}
    (ha : a.satField = some sa) (hb : b.satField = some sb)
    (hta : jsTruthy a.satField = true) (htb : jsTruthy b.satField = true) :
    jsCmp a b ≤ 0 ↔ sa ≤ sb := by
  unfold jsCmp
  rw [if_pos ⟨hta, htb⟩, ha, hb]
  simp only [Option.getD_some]
  omega

theorem pairwise_stableInsert_truthy (x : DiffEntry) (l : List DiffEntry)
    (hx : jsTruthy x.satField = true)
    (hl : ∀ y ∈ l, jsTruthy y.satField = true)
    (hsort : l.Pairwise fun a b => satLeB a b = true) :
    (stableInsert jsCmp x l).Pairwise fun a b => satLeB a b = true := by
  induction l with
  | nil => simp [stableInsert]
  | cons y ys ih =>
    obtain ⟨hy, hys⟩ := List.pairwise_cons.mp hsort
    have hyt := hl y (List.mem_cons_self y ys)
    obtain ⟨sx, hsx, -⟩ := jsTruthy_satField hx
    obtain ⟨sy, hsy, -⟩ := jsTruthy_satField hyt
    rw [stableInsert]
    split_ifs with hc
    · refine List.pairwise_cons.mpr
        ⟨?_, ih (fun z hz => hl z (List.mem_cons_of_mem y hz)) hys⟩
      intro z hz
      rcases mem_stableInsert.mp hz with rfl | hz'
      · exact (satLeB_iff hsy hsx).mpr ((jsCmp_le_iff hsy hsx hyt hx).mp hc)
      · exact hy z hz'
    · have hxy : sx ≤ sy := by
        have hnot : ¬ sy ≤ sx := fun hle =>
          hc ((jsCmp_le_iff hsy hsx hyt hx).mpr hle)
        omega
      refine List.pairwise_cons.mpr ⟨?_, hsort⟩
      intro z hz
      rcases List.mem_cons.mp hz with rfl | hz'
      · exact (satLeB_iff hsx hsy).mpr hxy
      · obtain ⟨sz, hsz, -⟩ :=
          jsTruthy_satField (hl z (List.mem_cons_of_mem y hz'))
        have hyz : sy ≤ sz := (satLeB_iff hsy hsz).mp (hy z hz')
        exact (satLeB_iff hsx hsz).mpr (le_trans hxy hyz)

theorem pairwise_foldl_stableInsert (l : List DiffEntry)
    (acc : List DiffEntry)
    (hl : ∀ y ∈ l, jsTruthy y.satField = true)
    (hacc : ∀ y ∈ acc, jsTruthy y.satField = true)
    (hsort : acc.Pairwise fun a b => satLeB a b = true) :
    (l.foldl (fun acc x => stableInsert jsCmp x acc) acc).Pairwise
      fun a b => satLeB a b = true := by
  induction l generalizing acc with
  | nil => exact hsort
  | cons x t ih =>
    rw [List.foldl_cons]
    have hxt := hl x (List.mem_cons_self x t)
    refine ih _ (fun y hy => hl y (List.mem_cons_of_mem x hy)) ?_ ?_
    · intro y hy
      rcases mem_stableInsert.mp hy with rfl | hy'
      · exact hxt
      · exact hacc y hy'
    · exact pairwise_stableInsert_truthy x acc hxt hacc hsort

theorem pairwise_jsStableSort_truthy (l : List DiffEntry)
    (hl : ∀ y ∈ l, jsTruthy y.satField = true) :
    (jsStableSort jsCmp l).Pairwise fun a b => satLeB a b = true := by
  unfold jsStableSort
  exact pairwise_foldl_stableInsert l [] hl (by simp) (by simp)

/-- C5 (amended): the output is sorted by disputed sat ascending whenever
every emitted record carries a nonzero sat (in particular, when no
BLOCK_CONFLICT records and no sat-0 records are emitted).  In general the
comparator returns 0 for records it cannot compare — a record with sat 0,
or an ONLY/SAT_CONFLICT record against a BLOCK_CONFLICT record — and the
stable sort then keeps their relative order, so the list need not be
globally sorted. -/
theorem diff_sorted_of_truthy (A B : List (Nat × Nat))
    (h : ∀ e ∈ (compareFiles A B).diffs, jsTruthy e.satField = true) :
    specSortedBySat (compareFiles A B).diffs := by
  unfold specSortedBySat
  unfold compareFiles at h ⊢
  dsimp only at h ⊢
  exact pairwise_jsStableSort_truthy _ fun y hy => h y (mem_jsStableSort.mpr hy)

/-- C5 counterexample: `A = [(300, 1), (0, 5)]`, `B = [(300, 2), (0, 7)]`
yield the differences `[SAT_CONFLICT(sat 300), SAT_CONFLICT(sat 0)]` in
that order — sat 300 before sat 0 — because the comparator treats the
falsy sat 0 as incomparable and returns 0.  The claimed
sorted-by-sat-ascending property fails. -/
theorem diff_sort_counterexample :
    ¬ specSortedBySat (compareFiles [(300, 1), (0, 5)] [(300, 2), (0, 7)]).diffs ∧
    ((compareFiles [(300, 1), (0, 5)] [(300, 2), (0, 7)]).diffs.map
      DiffEntry.satField) = [some 300, some 0] := by
  constructor
  · unfold specSortedBySat
    decide
  · decide

/-- C5 witness for the amended statement: one SAT_CONFLICT entry with a
nonzero sat, trivially sorted. -/
theorem diff_sorted_of_truthy_witness :
    specSortedBySat (compareFiles [(100, 5)] [(100, 7)]).diffs :=
  diff_sorted_of_truthy [(100, 5)] [(100, 7)] (by decide)

/-! ## C2 — the winner's ledger height never exceeds the loser's -/

/-- C2: in both resolver paths, whenever both competing inscriptions have
non-null fetched block heights, the declared winner's height is never
strictly greater than the loser's.  First conjunct: the
different-identity path of `resolveConflict` (repo1's inscription resolves
to height `h1`, repo2's to `h2`).  Second conjunct: the First-is-First
comparison (STEPs 4–7) of the identical-identity sub-protocol, for either
assignment of the correct repo (`hc` is the correct inscription's height,
`hr` the remaining one's; the flipped repo wins only on an earlier
remaining inscription). -/
theorem resolver_height_safety (P : Providers) (c : Conflict) :
    (∀ t1 t2 h1 h2, c.repo1Id ≠ c.repo2Id →
      extractTxId c.repo1Id = some t1 → extractTxId c.repo2Id = some t2 →
      (P.txPos t1).blockHeight = some h1 → (P.txPos t2).blockHeight = some h2 →
      ((resolveConflict P c).winner = Winner.repo1 → h1 ≤ h2) ∧
      ((resolveConflict P c).winner = Winner.repo2 → h2 ≤ h1)) ∧
    (∀ w cid remSat actual rid ct rt hc hr,
      (w = Winner.repo1 ∨ w = Winner.repo2) →
      P.inscriptionBySat remSat c.block = some rid →
      extractTxId cid = some ct → extractTxId rid = some rt →
      (P.txPos ct).blockHeight = some hc → (P.txPos rt).blockHeight = some hr →
      ((identicalSteps4to7 P c w cid remSat actual).winner = w → hc ≤ hr) ∧
      ((identicalSteps4to7 P c w cid remSat actual).winner = flipRepo w →
        hr ≤ hc)) := by
  constructor
  · intro t1 t2 h1 h2 hne ht1 ht2 hh1 hh2
    have hnf1 : c.repo1Id ≠ idNotFound := by
      intro h
      rw [h] at ht1
      simp [extractTxId] at ht1
    have hnf2 : c.repo2Id ≠ idNotFound := by
      intro h
      rw [h] at ht2
      simp [extractTxId] at ht2
    unfold resolveConflict
    rw [if_neg hne, if_neg (by tauto), if_neg hnf1, if_neg hnf2, ht1, ht2]
    dsimp only
    rw [hh1, hh2]
    repeat' (first | dsimp only | split)
    all_goals
      constructor <;> intro hw <;>
        first
          | omega
          | exact absurd hw (by simp)
  · intro w cid remSat actual rid ct rt hc hr hw01 hrid hct hrt hhc hhr
    have hflip : flipRepo w ≠ w := by
      rcases hw01 with rfl | rfl <;> simp [flipRepo]
    unfold identicalSteps4to7
    rw [hrid]
    dsimp only
    rw [hct, hrt]
    dsimp only
    rw [hhc, hhr]
    repeat' (first | dsimp only | split)
    all_goals
      constructor <;> intro hw <;>
        first
          | omega
          | exact absurd hw.symm hflip
          | exact absurd hw hflip

/-- C2 witness: with `pAB` placing the correct/first inscription at block 3
and the other at block 5, both conjuncts instantiate with heights 3 and 5. -/
theorem resolver_height_safety_witness :
    (((resolveConflict pAB conflictAB).winner = Winner.repo1 → 3 ≤ 5) ∧
     ((resolveConflict pAB conflictAB).winner = Winner.repo2 → 5 ≤ 3)) ∧
    (((identicalSteps4to7 pAB conflictAB Winner.repo1 idA 20 "10").winner =
        Winner.repo1 → 3 ≤ 5) ∧
     ((identicalSteps4to7 pAB conflictAB Winner.repo1 idA 20 "10").winner =
        flipRepo Winner.repo1 → 5 ≤ 3)) :=
  ⟨(resolver_height_safety pAB conflictAB).1 txA txB 3 5 (by decide) (by decide)
      (by decide) (by decide) (by decide),
   (resolver_height_safety pAB conflictAB).2 Winner.repo1 idA 20 "10" idB txA
      txB 3 5 (Or.inl rfl) (by decide) (by decide) (by decide) (by decide)
      (by decide)⟩

/-! ## C7 — memoization of registry partition fetches -/

theorem count_append_single (l : List String) (x k : String) :
    (l ++ [x]).count k = l.count k + (if x = k then 1 else 0) := by
  rw [List.count_append]
  by_cases hx : x = k <;> simp [hx, List.count_cons]

theorem find?_append_isSome {α} (l l' : List α) (p : α → Bool) :
    ((l ++ l').find? p).isSome =
      ((l.find? p).isSome || (l'.find? p).isSome) := by
  induction l with
  | nil => simp
  | cons x t ih => by_cases hx : p x <;> simp [List.find?_cons, hx, ih]

/-- A cache hit leaves the reconciler state untouched (no fetch). -/
theorem fetchRegistryFile_hit (net : String → Except Unit (List RegRecord))
    (st : RegistryCache) (repoBase filename : String)
    (h : (st.cache.find? fun p => p.1 = repoBase ++ filename).isSome) :
    (fetchRegistryFile net st repoBase filename).1 = st := by
  unfold fetchRegistryFile
  dsimp only
  obtain ⟨p, hp⟩ := Option.isSome_iff_exists.mp h
  rw [hp]

/-- One identity lookup preserves the memoization invariant, provided the
network fetch of the tracked key succeeds. -/
theorem lookup_step_cachedOnce (net : String → Except Unit (List RegRecord))
    (repoBase k : String) (d : List RegRecord) (hnet : net k = .ok d)
    (st : RegistryCache) (b : Nat) (h : CachedOnce k st) :
    CachedOnce k (getInscriptionIdForBlock net st b repoBase).1 := by
  obtain ⟨hcount, hcached⟩ := h
  unfold getInscriptionIdForBlock
  cases hgf : getRegistryFileForBlock b with
  | none => exact ⟨hcount, hcached⟩
  | some f =>
    dsimp only
    unfold fetchRegistryFile
    dsimp only
    cases hfind : st.cache.find? fun p => p.1 = repoBase ++ f with
    | some p => exact ⟨hcount, hcached⟩
    | none =>
      by_cases hk : repoBase ++ f = k
      · -- fetching exactly the tracked key: it is not yet cached,
        -- so it has not been fetched yet, and the success gets cached
        have hzero : st.fetchLog.count k = 0 := by
          rcases Nat.lt_or_ge (st.fetchLog.count k) 1 with h0 | h1
          · omega
          · exfalso
            have := hcached (by omega)
            rw [← hk] at this
            rw [hfind] at this
            cases this
        rw [hk, hnet]
        refine ⟨?_, ?_⟩
        · rw [count_append_single, hzero]
          simp
        · intro _
          rw [find?_append_isSome]
          simp [hk]
      · -- fetching a different partition: the tracked key's count is
        -- unchanged and its cache entry (if any) survives the append
        cases hres : net (repoBase ++ f) with
        | ok data =>
          refine ⟨?_, ?_⟩
          · rw [count_append_single, if_neg hk]
            omega
          · intro hone
            rw [count_append_single, if_neg hk] at hone
            rw [find?_append_isSome, hcached (by omega)]
            simp
        | error e =>
          refine ⟨?_, ?_⟩
          · rw [count_append_single, if_neg hk]
            omega
          · intro hone
            rw [count_append_single, if_neg hk] at hone
            exact hcached (by omega)

theorem runLookups_cachedOnce (net : String → Except Unit (List RegRecord))
    (repoBase k : String) (d : List RegRecord) (hnet : net k = .ok d)
    (blocks : List Nat) (st : RegistryCache) (h : CachedOnce k st) :
    CachedOnce k (runLookups net repoBase blocks st) := by
  induction blocks generalizing st with
  | nil => exact h
  | cons b t ih =>
    unfold runLookups
    rw [List.foldl_cons]
    exact ih _ (lookup_step_cachedOnce net repoBase k d hnet st b h)

/-- C7 (amended): when the network fetch of a partition file succeeds, at
most one fetch of that (source, partition-file) pair is ever issued over a
whole run, and any lookup whose partition is already cached leaves the
state untouched (it is served from the memoized registry cache).  A FAILED
fetch, however, is not cached — `fetchRegistryFile` returns `[]` without
touching `registryCache` — so the same partition can be fetched again. -/
theorem registry_fetch_memoized (net : String → Except Unit (List RegRecord))
    (repoBase k : String) (d : List RegRecord) (hnet : net k = .ok d) :
    (∀ blocks : List Nat,
      (runLookups net repoBase blocks ⟨[], []⟩).fetchLog.count k ≤ 1) ∧
    (∀ (st : RegistryCache) (b : Nat) (f : String),
      getRegistryFileForBlock b = some f →
      (st.cache.find? fun p => p.1 = repoBase ++ f).isSome →
      (getInscriptionIdForBlock net st b repoBase).1 = st) := by
  constructor
  · intro blocks
    exact (runLookups_cachedOnce net repoBase k d hnet blocks ⟨[], []⟩
      ⟨by simp, by simp⟩).1
  · intro st b f hgf hcached
    unfold getInscriptionIdForBlock
    rw [hgf]
    dsimp only
    exact fetchRegistryFile_hit net st repoBase f hcached

/-- C7 counterexample: with a failing network, two lookups in the same
partition (blocks 0 and 1, partition file 0-9999.json) issue TWO network
fetches of the same (source, partition-file) pair — the failure is not
memoized, refuting "at most one network fetch per pair". -/
theorem registry_fetch_counterexample :
    (runLookups failNet "repo1/" [0, 1] ⟨[], []⟩).fetchLog.count
      "repo1/0-9999.json" = 2 := by
  decide

/-- C7 witness: with a succeeding network, blocks 0 and 1 share one fetch,
and a lookup against an already-cached partition leaves the state
unchanged. -/
theorem registry_fetch_memoized_witness :
    (runLookups okNet "repo1/" [0, 1] ⟨[], []⟩).fetchLog.count
      "repo1/0-9999.json" ≤ 1 ∧
    (getInscriptionIdForBlock okNet
        ⟨[("repo1/0-9999.json", [⟨0, "x"⟩])], ["repo1/0-9999.json"]⟩ 0
        "repo1/").1 =
      ⟨[("repo1/0-9999.json", [⟨0, "x"⟩])], ["repo1/0-9999.json"]⟩ :=
  ⟨(registry_fetch_memoized okNet "repo1/" "repo1/0-9999.json" [⟨0, "x"⟩]
      rfl).1 [0, 1],
   (registry_fetch_memoized okNet "repo1/" "repo1/0-9999.json" [⟨0, "x"⟩]
      rfl).2 ⟨[("repo1/0-9999.json", [⟨0, "x"⟩])], ["repo1/0-9999.json"]⟩ 0
      "0-9999.json" (by decide) (by decide)⟩

/-! ## C6 — provider router forward progress -/

/-- One loop iteration on blockstream (index 1): the active index never
decreases, the mempool counter is untouched, only blockstream is sent
requests, and a blockstream-exhausted-implies-retired state stays so. -/
theorem tryPrimary_blockstream_spec (resp : ApiName → Bool → Outcome)
    (now : Nat) (s : ApiState) (reqs : List ApiName) :
    s.activeApiIndex ≤
      (stepState (tryPrimary resp now 1 .blockstream s reqs)).activeApiIndex ∧
    (stepState (tryPrimary resp now 1 .blockstream s reqs)).mempool = s.mempool ∧
    (∀ a ∈ stepReqs (tryPrimary resp now 1 .blockstream s reqs),
      a ∈ reqs ∨ a = ApiName.blockstream) ∧
    (BlockstreamRetired s →
      BlockstreamRetired (stepState (tryPrimary resp now 1 .blockstream s reqs))) := by
  unfold tryPrimary
  simp only [getCounter, setCounter, reduceIte]
  by_cases hr : s.blockstream.resetAt ≤ now <;>
    try simp only [hr, if_true, if_false, ite_true, ite_false]
  all_goals repeat' split
  all_goals
    refine ⟨?_, ?_, ?_, ?_⟩ <;>
      simp_all [stepState, stepReqs, BlockstreamRetired] <;>
      first | omega | tauto

/-- One loop iteration on mempool (index 0): the active index never
decreases, the blockstream counter is untouched, only mempool is sent
requests, and a mempool-exhausted-implies-retired state stays so (marking
mempool exhausted moves the index to 1). -/
theorem tryPrimary_mempool_spec (resp : ApiName → Bool → Outcome)
    (now : Nat) (s : ApiState) (reqs : List ApiName) :
    s.activeApiIndex ≤
      (stepState (tryPrimary resp now 0 .mempool s reqs)).activeApiIndex ∧
    (stepState (tryPrimary resp now 0 .mempool s reqs)).blockstream =
      s.blockstream ∧
    (∀ a ∈ stepReqs (tryPrimary resp now 0 .mempool s reqs),
      a ∈ reqs ∨ a = ApiName.mempool) ∧
    (MempoolRetired s →
      MempoolRetired (stepState (tryPrimary resp now 0 .mempool s reqs))) := by
  unfold tryPrimary
  simp only [getCounter, setCounter, reduceIte]
  by_cases hr : s.mempool.resetAt ≤ now <;>
    try simp only [hr, if_true, if_false, ite_true, ite_false]
  all_goals repeat' split
  all_goals
    refine ⟨?_, ?_, ?_, ?_⟩ <;>
      simp_all [stepState, stepReqs, MempoolRetired] <;>
      first | omega | tauto

/-- The tail `[1]` of the loop is exactly one blockstream iteration. -/
theorem fetchLoop_one (resp : ApiName → Bool → Outcome) (now : Nat)
    (s : ApiState) (reqs : List ApiName) :
    (fetchLoop resp now [1] s reqs).state =
      stepState (tryPrimary resp now 1 .blockstream s reqs) ∧
    (fetchLoop resp now [1] s reqs).requests =
      stepReqs (tryPrimary resp now 1 .blockstream s reqs) := by
  unfold fetchLoop
  dsimp only [primaryApi]
  cases tryPrimary resp now 1 .blockstream s reqs with
  | inl r => exact ⟨rfl, rfl⟩
  | inr p =>
    obtain ⟨s', reqs'⟩ := p
    exact ⟨rfl, rfl⟩

/-- C6 (amended): the claimed router discipline holds for every request
routed through `fetchFromAPI` — the active index starts at
`activeApiIndex` and only advances, the index-0 provider (mempool) is
never contacted once the index has passed it, and a provider marked
exhausted (which always pushes the index past it) is never sent another
`fetchFromAPI` request for the rest of the run — but NOT for the
per-block transaction-id list fetches, which bypass the router (see the
counterexample). -/
theorem fetchFromAPI_router_invariant (resp : ApiName → Bool → Outcome)
    (now : Nat) (s : ApiState) :
    s.activeApiIndex ≤ (fetchFromAPI resp now s).state.activeApiIndex ∧
    (2 ≤ s.activeApiIndex → (fetchFromAPI resp now s).requests = []) ∧
    (1 ≤ s.activeApiIndex →
      ApiName.mempool ∉ (fetchFromAPI resp now s).requests ∧
      (fetchFromAPI resp now s).state.mempool = s.mempool) ∧
    (MempoolRetired s →
      MempoolRetired (fetchFromAPI resp now s).state ∧
      (s.mempool.exhausted = true →
        ApiName.mempool ∉ (fetchFromAPI resp now s).requests)) ∧
    (BlockstreamRetired s →
      BlockstreamRetired (fetchFromAPI resp now s).state ∧
      (s.blockstream.exhausted = true →
        ApiName.blockstream ∉ (fetchFromAPI resp now s).requests)) := by
  have hsplit : s.activeApiIndex = 0 ∨ s.activeApiIndex = 1 ∨
      2 ≤ s.activeApiIndex := by omega
  rcases hsplit with h0 | h1 | h2
  · -- a fresh run: both iterations may fire
    have hrange : List.range' s.activeApiIndex (2 - s.activeApiIndex) = [0, 1] := by
      rw [h0]
      rfl
    unfold fetchFromAPI
    rw [hrange]
    have hm := tryPrimary_mempool_spec resp now s []
    cases ht0 : tryPrimary resp now 0 .mempool s [] with
    | inl r =>
      have hred : fetchLoop resp now [0, 1] s [] = r := by
        have hdef : fetchLoop resp now [0, 1] s [] =
            (match tryPrimary resp now 0 .mempool s [] with
             | .inl r => r
             | .inr (s', reqs') => fetchLoop resp now [1] s' reqs') := rfl
        rw [hdef, ht0]
      rw [ht0] at hm
      have hm1 : s.activeApiIndex ≤ r.state.activeApiIndex := hm.1
      have hm2 : r.state.blockstream = s.blockstream := hm.2.1
      have hm3 : ∀ a ∈ r.requests, a ∈ ([] : List ApiName) ∨
          a = ApiName.mempool := hm.2.2.1
      have hm4 : MempoolRetired s → MempoolRetired r.state := hm.2.2.2
      rw [hred]
      refine ⟨hm1, fun hc => absurd hc (by omega), fun hc => absurd hc (by omega),
        ?_, ?_⟩
      · intro hret
        exact ⟨hm4 hret, fun hexh => absurd (hret hexh) (by omega)⟩
      · intro hret
        refine ⟨?_, fun hexh => absurd (hret hexh) (by omega)⟩
        intro hbse
        rw [hm2] at hbse
        have := hret hbse
        omega
    | inr p =>
      obtain ⟨s1, reqs1⟩ := p
      have hred : fetchLoop resp now [0, 1] s [] =
          fetchLoop resp now [1] s1 reqs1 := by
        have hdef : fetchLoop resp now [0, 1] s [] =
            (match tryPrimary resp now 0 .mempool s [] with
             | .inl r => r
             | .inr (s', reqs') => fetchLoop resp now [1] s' reqs') := rfl
        rw [hdef, ht0]
      rw [ht0] at hm
      have hm1 : s.activeApiIndex ≤ s1.activeApiIndex := hm.1
      have hm2 : s1.blockstream = s.blockstream := hm.2.1
      have hm3 : ∀ a ∈ reqs1, a ∈ ([] : List ApiName) ∨
          a = ApiName.mempool := hm.2.2.1
      have hm4 : MempoolRetired s → MempoolRetired s1 := hm.2.2.2
      obtain ⟨hb1, hb2, hb3, hb4⟩ := tryPrimary_blockstream_spec resp now s1 reqs1
      obtain ⟨hps, hpr⟩ := fetchLoop_one resp now s1 reqs1
      rw [hred, hps, hpr]
      refine ⟨le_trans hm1 hb1, fun hc => absurd hc (by omega),
        fun hc => absurd hc (by omega), ?_, ?_⟩
      · intro hret
        have hrets1 : MempoolRetired s1 := hm4 hret
        refine ⟨?_, fun hexh => absurd (hret hexh) (by omega)⟩
        intro hme
        rw [hb2] at hme
        exact le_trans (hrets1 hme) hb1
      · intro hret
        refine ⟨?_, fun hexh => absurd (hret hexh) (by omega)⟩
        apply hb4
        intro hbse1
        rw [hm2] at hbse1
        have := hret hbse1
        omega
  · -- the index already passed mempool: only blockstream can fire
    have hrange : List.range' s.activeApiIndex (2 - s.activeApiIndex) = [1] := by
      rw [h1]
      rfl
    unfold fetchFromAPI
    rw [hrange]
    obtain ⟨hb1, hb2, hb3, hb4⟩ := tryPrimary_blockstream_spec resp now s []
    obtain ⟨hps, hpr⟩ := fetchLoop_one resp now s []
    rw [hps, hpr]
    have hnomp : ApiName.mempool ∉
        stepReqs (tryPrimary resp now 1 .blockstream s []) := by
      intro hmem
      rcases hb3 _ hmem with hnil | hbs
      · cases hnil
      · cases hbs
    refine ⟨hb1, fun hc => absurd hc (by omega), fun _ => ⟨hnomp, hb2⟩, ?_, ?_⟩
    · intro hret
      refine ⟨?_, fun _ => hnomp⟩
      intro hme
      rw [hb2] at hme
      exact le_trans (hret hme) hb1
    · intro hret
      refine ⟨hb4 hret, fun hexh => absurd (hret hexh) (by omega)⟩
  · -- the index passed the whole primary list: the loop body never runs
    have hrange : List.range' s.activeApiIndex (2 - s.activeApiIndex) = [] := by
      have h20 : 2 - s.activeApiIndex = 0 := by omega
      rw [h20, List.range']
    unfold fetchFromAPI
    rw [hrange]
    exact ⟨le_refl _, fun _ => rfl, fun _ => ⟨by simp [fetchLoop], rfl⟩,
      fun hret => ⟨hret, fun _ => by simp [fetchLoop]⟩,
      fun hret => ⟨hret, fun _ => by simp [fetchLoop]⟩⟩

/-- C6 counterexample: starting fresh, a rate-limited run marks mempool
exhausted — yet the per-block txid-list fallthrough of
`getTxPositionInBlock` still contacts mempool first (its attempt order is
fixed and independent of the router state), refuting "never sent another
request mid-run, including per-block transaction-id list fetches". -/
theorem blockTxids_ignores_exhaustion_counterexample :
    (fetchFromAPI (fun _ _ => .rateLimited) 0 apiState0).state.mempool.exhausted
      = true ∧
    ApiName.mempool ∈ blockTxidsAttempts (fun _ => true) ∧
    ApiName.mempool ∈ blockTxidsAttempts (fun _ => false) := by
  decide

/-- C6 witness: in the post-exhaustion state (mempool exhausted, index 1),
a further `fetchFromAPI` call sends mempool no request and leaves its
counter untouched. -/
theorem fetchFromAPI_router_invariant_witness :
    ApiName.mempool ∉
      (fetchFromAPI (fun _ _ => .rateLimited) 0 apiStateM).requests ∧
    (fetchFromAPI (fun _ _ => .rateLimited) 0 apiStateM).state.mempool =
      apiStateM.mempool :=
  (fetchFromAPI_router_invariant (fun _ _ => .rateLimited) 0 apiStateM).2.2.1
    (by decide)

end BitmapIndexer
